import Mathlib

/-!
Verification development for the sifto worker LLM-orchestration layer.

The Python sources under `src/worker/app` are shallowly embedded here:
Python strings become `List Char`, Python floats become `ℚ` with an explicit
half-even rounding function mirroring the builtin `round`, Python dicts with
a fixed key set become structures (keys that can be absent become `Option`
fields), and fallible code returns `Except`.  Network calls are abstracted
as explicit outcome parameters; everything after the transport boundary is
translated directly from the source.
-/

set_option maxHeartbeats 1000000

/-- Python `str.strip()` restricted to the embedded alphabet: drop leading and
trailing whitespace characters. -/
def pyStrip (s : List Char) : List Char :=
  ((s.dropWhile Char.isWhitespace).reverse.dropWhile Char.isWhitespace).reverse

/-- Python `str.lower()` on the embedded alphabet (ASCII case folding). -/
def pyLower (s : List Char) : List Char :=
  s.map Char.toLower

/-- Helper for `pyWords`: accumulate the current word (reversed) while
scanning the input, emitting a word at each whitespace run boundary. -/
def pyWordsAux : List Char → List Char → List (List Char)
  | [], cur => if cur = [] then [] else [cur.reverse]
  | c :: rest, cur =>
    if c.isWhitespace then
      if cur = [] then pyWordsAux rest [] else cur.reverse :: pyWordsAux rest []
    else pyWordsAux rest (c :: cur)

/-- Python `str.split()` with no separator: split on whitespace runs and drop
empty pieces. -/
def pyWords (s : List Char) : List (List Char) :=
  pyWordsAux s []

/-- The normalization key used by `_merge_fact_lists`:
`" ".join(fact.lower().split())`. -/
def normalizeFactKey (fact : List Char) : List Char :=
  List.intercalate [' '] (pyWords (pyLower fact))

/-- First index at which `needle` occurs inside `hay`, mirroring Python
`str.find` for substring search. -/
def findSubstrIdx (needle : List Char) : List Char → Option Nat
  | [] => if needle = [] then some 0 else none
  | c :: rest =>
    if needle.isPrefixOf (c :: rest) then some 0
    else (findSubstrIdx needle rest).map (· + 1)

/-- Python `needle in hay` substring test. -/
def isSubstrOf (needle hay : List Char) : Bool :=
  (findSubstrIdx needle hay).isSome

/-- Python `str.splitlines()` restricted to the terminators `\r\n`, `\r`,
`\n` (the only ones the embedded inputs use). -/
def pySplitlinesAux : List Char → List Char → List (List Char)
  | [], cur => if cur = [] then [] else [cur.reverse]
  | '\r' :: '\n' :: rest, cur => cur.reverse :: pySplitlinesAux rest []
  | '\r' :: rest, cur => cur.reverse :: pySplitlinesAux rest []
  | '\n' :: rest, cur => cur.reverse :: pySplitlinesAux rest []
  | c :: rest, cur => pySplitlinesAux rest (c :: cur)

/-- Python `str.splitlines()` (see `pySplitlinesAux`). -/
def pySplitlines (s : List Char) : List (List Char) :=
  pySplitlinesAux s []

/-- Helper for `dedupKeepFirst`: drop elements already seen. -/
def dedupKeepFirstAux : List (List Char) → List (List Char) → List (List Char)
  | _, [] => []
  | seen, x :: rest =>
    if x ∈ seen then dedupKeepFirstAux seen rest
    else x :: dedupKeepFirstAux (x :: seen) rest

/-- Order-preserving first-occurrence deduplication, mirroring Python
`dict.fromkeys(xs)` used for topic lists. -/
def dedupKeepFirst (l : List (List Char)) : List (List Char) :=
  dedupKeepFirstAux [] l

/-- Insert a string into a list that is sorted by decreasing length, keeping
insertion stable among equal lengths (the new element goes after existing
ones of the same length). -/
def insertLenDesc (x : List Char) : List (List Char) → List (List Char)
  | [] => [x]
  | y :: ys => if y.length < x.length then x :: y :: ys else y :: insertLenDesc x ys

/-- Stable sort by decreasing string length, mirroring Python
`sorted(keys, key=len, reverse=True)`. -/
def sortLenDesc (l : List (List Char)) : List (List Char) :=
  l.foldl (fun acc x => insertLenDesc x acc) []

/-- Round a rational to the nearest integer with ties going to the even
integer, mirroring the rounding rule of Python `round`. -/
def roundHalfEven (x : ℚ) : ℤ :=
  if x - ⌊x⌋ < 1 / 2 then ⌊x⌋
  else if 1 / 2 < x - ⌊x⌋ then ⌊x⌋ + 1
  else if ⌊x⌋ % 2 = 0 then ⌊x⌋ else ⌊x⌋ + 1

/-- Python `round(x, n)` on exact rationals: round `x` to `n` decimal
places, ties to even. -/
def roundTo (n : ℕ) (x : ℚ) : ℚ :=
  (roundHalfEven (x * 10 ^ n) : ℚ) / 10 ^ n

theorem roundHalfEven_floor_le (x : ℚ) : ⌊x⌋ ≤ roundHalfEven x := by
  unfold roundHalfEven
  split_ifs <;> omega

theorem roundHalfEven_le_floor_add_one (x : ℚ) : roundHalfEven x ≤ ⌊x⌋ + 1 := by
  unfold roundHalfEven
  split_ifs <;> omega

theorem roundHalfEven_mono {x y : ℚ} (h : x ≤ y) :
    roundHalfEven x ≤ roundHalfEven y := by
  have hf : ⌊x⌋ ≤ ⌊y⌋ := Int.floor_mono h
  rcases lt_or_eq_of_le hf with hlt | heq
  · have h1 := roundHalfEven_le_floor_add_one x
    have h2 := roundHalfEven_floor_le y
    omega
  · have hxy : x - (⌊x⌋ : ℚ) ≤ y - (⌊y⌋ : ℚ) := by
      rw [← heq]; linarith
    unfold roundHalfEven
    rw [← heq]
    split_ifs <;> first | omega | linarith

theorem roundHalfEven_nonneg {x : ℚ} (h : 0 ≤ x) : 0 ≤ roundHalfEven x := by
  have h1 : (0 : ℤ) ≤ ⌊x⌋ := Int.floor_nonneg.mpr h
  have h2 := roundHalfEven_floor_le x
  omega

theorem roundHalfEven_intCast (k : ℤ) : roundHalfEven (k : ℚ) = k := by
  unfold roundHalfEven
  rw [Int.floor_intCast]
  norm_num

theorem roundTo_of_mul_eq_intCast (n : ℕ) (x : ℚ) (k : ℤ)
    (h : x * 10 ^ n = (k : ℚ)) : roundTo n x = (k : ℚ) / 10 ^ n := by
  unfold roundTo
  rw [h, roundHalfEven_intCast]

theorem roundTo_mono (n : ℕ) {x y : ℚ} (h : x ≤ y) : roundTo n x ≤ roundTo n y := by
  unfold roundTo
  have hpow : (0 : ℚ) < 10 ^ n := by positivity
  have h1 : x * 10 ^ n ≤ y * 10 ^ n := by
    exact mul_le_mul_of_nonneg_right h (le_of_lt hpow)
  have h2 := roundHalfEven_mono h1
  have h3 : ((roundHalfEven (x * 10 ^ n) : ℤ) : ℚ) ≤ ((roundHalfEven (y * 10 ^ n) : ℤ) : ℚ) := by
    exact_mod_cast h2
  exact div_le_div_of_nonneg_right h3 hpow.le

theorem roundTo_nonneg (n : ℕ) {x : ℚ} (h : 0 ≤ x) : 0 ≤ roundTo n x := by
  unfold roundTo
  have hpow : (0 : ℚ) < 10 ^ n := by positivity
  have h1 : (0 : ℚ) ≤ x * 10 ^ n := by positivity
  have h2 := roundHalfEven_nonneg h1
  have h3 : (0 : ℚ) ≤ ((roundHalfEven (x * 10 ^ n) : ℤ) : ℚ) := by exact_mod_cast h2
  positivity

/-- Pricing entry from `_DEFAULT_MODEL_PRICING` in `claude_service.py`:
USD per 1M tokens for input, output, cache write and cache read. -/
structure ClaudePricing where
  inputPerMtokUsd : ℚ
  outputPerMtokUsd : ℚ
  cacheWritePerMtokUsd : ℚ
  cacheReadPerMtokUsd : ℚ
  deriving DecidableEq

/-- The resolved per-purpose environment overrides
(`_env_optional_float(prefix + ...)` in `_pricing_for_model`); `none` means
the environment variable is unset or unparsable. -/
structure ClaudePricingOverrides where
  inputPerMtokUsd : Option ℚ
  outputPerMtokUsd : Option ℚ
  cacheWritePerMtokUsd : Option ℚ
  cacheReadPerMtokUsd : Option ℚ
  deriving DecidableEq

/-- No environment overrides (default deployment). -/
def noClaudeOverrides : ClaudePricingOverrides := ⟨none, none, none, none⟩

/-- `_DEFAULT_MODEL_PRICING` of `claude_service.py` as an association list in
dict insertion order. -/
def claudeDefaultModelPricing : List (List Char × ClaudePricing) :=
  [("claude-haiku-4-5".toList, ⟨1, 5, 5 / 4, 1 / 10⟩),
   ("claude-sonnet-4-6".toList, ⟨3, 15, 15 / 4, 3 / 10⟩),
   ("claude-opus-4-6".toList, ⟨5, 25, 25 / 4, 1 / 2⟩)]

/-- `_ANTHROPIC_PRICING_SOURCE_VERSION`. -/
def anthropicPricingSourceVersion : List Char := "anthropic_static_2026_02".toList

/-- `_GEMINI_PRICING_SOURCE_VERSION`. -/
def geminiPricingSourceVersion : List Char := "google_aistudio_static_2026_02".toList

/-- `_normalize_model_family` of `claude_service.py`: longest known family
that is the model itself or a dash-separated prefix of it. -/
def claudeNormalizeModelFamily (model : List Char) : List Char :=
  if model = [] then []
  else
    match (sortLenDesc (claudeDefaultModelPricing.map (·.1))).find?
        (fun fam => model == fam || (fam ++ "-".toList).isPrefixOf model) with
    | some fam => fam
    | none => model

/-- Pricing data produced by `_pricing_for_model`: the rate entry plus the
`pricing_source` and `pricing_model_family` bookkeeping fields. -/
structure ClaudePricingInfo where
  entry : ClaudePricing
  pricingSource : List Char
  pricingModelFamily : List Char
  deriving DecidableEq

/-- `_pricing_for_model` of `claude_service.py`.  The `purpose` argument of
the source only selects which environment variables to read; the resolved
reads are passed here directly as `ov`. -/
def claudePricingForModel (ov : ClaudePricingOverrides) (model : List Char) :
    ClaudePricingInfo :=
  let family := claudeNormalizeModelFamily model
  let base := match claudeDefaultModelPricing.find? (fun kv => kv.1 == family) with
    | some kv => kv.2
    | none => ⟨0, 0, 0, 0⟩
  let entry : ClaudePricing :=
    { inputPerMtokUsd := ov.inputPerMtokUsd.getD base.inputPerMtokUsd
      outputPerMtokUsd := ov.outputPerMtokUsd.getD base.outputPerMtokUsd
      cacheWritePerMtokUsd := ov.cacheWritePerMtokUsd.getD base.cacheWritePerMtokUsd
      cacheReadPerMtokUsd := ov.cacheReadPerMtokUsd.getD base.cacheReadPerMtokUsd }
  let source :=
    if ov.inputPerMtokUsd.isSome || ov.outputPerMtokUsd.isSome
        || ov.cacheWritePerMtokUsd.isSome || ov.cacheReadPerMtokUsd.isSome then
      "env_override".toList
    else anthropicPricingSourceVersion
  ⟨entry, source, family⟩

/-- Token usage of one Anthropic message (`_message_usage`). -/
structure ClaudeUsage where
  inputTokens : ℕ
  outputTokens : ℕ
  cacheCreationInputTokens : ℕ
  cacheReadInputTokens : ℕ
  deriving DecidableEq

/-- `_estimate_cost_usd` of `claude_service.py`. -/
def claudeEstimateCostUsd (ov : ClaudePricingOverrides) (model : List Char)
    (usage : ClaudeUsage) : ℚ :=
  let p := (claudePricingForModel ov model).entry
  roundTo 8 ((usage.inputTokens : ℚ) / 1000000 * p.inputPerMtokUsd
    + (usage.outputTokens : ℚ) / 1000000 * p.outputPerMtokUsd
    + (usage.cacheCreationInputTokens : ℚ) / 1000000 * p.cacheWritePerMtokUsd
    + (usage.cacheReadInputTokens : ℚ) / 1000000 * p.cacheReadPerMtokUsd)

/-- The cost formula exactly as the specification words it for any pricing
entry: linear combination of usage counts times per-million rates, rounded
to 8 decimal places.  Kept separate from the source translation so the two
can be compared. -/
def specEstimatedCostClaude (p : ClaudePricing) (usage : ClaudeUsage) : ℚ :=
  roundTo 8 ((usage.inputTokens : ℚ) / 1000000 * p.inputPerMtokUsd
    + (usage.outputTokens : ℚ) / 1000000 * p.outputPerMtokUsd
    + (usage.cacheCreationInputTokens : ℚ) / 1000000 * p.cacheWritePerMtokUsd
    + (usage.cacheReadInputTokens : ℚ) / 1000000 * p.cacheReadPerMtokUsd)

/-- Pricing entry of `_DEFAULT_MODEL_PRICING` in `gemini_service.py`. -/
structure GeminiPricing where
  inputPerMtokUsd : ℚ
  outputPerMtokUsd : ℚ
  deriving DecidableEq

/-- Resolved per-purpose environment overrides of the Gemini ledger. -/
structure GeminiPricingOverrides where
  inputPerMtokUsd : Option ℚ
  outputPerMtokUsd : Option ℚ
  deriving DecidableEq

/-- No environment overrides (default deployment). -/
def noGeminiOverrides : GeminiPricingOverrides := ⟨none, none⟩

/-- `_DEFAULT_MODEL_PRICING` of `gemini_service.py` in dict insertion
order. -/
def geminiDefaultModelPricing : List (List Char × GeminiPricing) :=
  [("gemini-3-flash-preview".toList, ⟨1 / 2, 3⟩),
   ("gemini-3.1-pro-preview".toList, ⟨2, 12⟩),
   ("gemini-3-pro-preview".toList, ⟨2, 12⟩),
   ("gemini-2.5-flash".toList, ⟨3 / 10, 5 / 2⟩),
   ("gemini-2.5-flash-lite".toList, ⟨1 / 10, 2 / 5⟩),
   ("gemini-2.5-pro".toList, ⟨5 / 4, 10⟩),
   ("gemini-2.0-flash".toList, ⟨1 / 10, 2 / 5⟩),
   ("gemini-2.0-flash-lite".toList, ⟨3 / 40, 3 / 10⟩),
   ("gemini-1.5-flash".toList, ⟨3 / 40, 3 / 10⟩),
   ("gemini-1.5-pro".toList, ⟨5 / 4, 5⟩)]

/-- `_normalize_model_name` of `gemini_service.py`: strip a leading
`models/` or anything up to and including the first `/models/`. -/
def geminiNormalizeModelName (model : List Char) : List Char :=
  let m := pyStrip model
  if "models/".toList.isPrefixOf m then m.drop 7
  else
    match findSubstrIdx "/models/".toList m with
    | some i => m.drop (i + 8)
    | none => m

/-- `_normalize_model_family` of `gemini_service.py`. -/
def geminiNormalizeModelFamily (model : List Char) : List Char :=
  let m := geminiNormalizeModelName model
  match (sortLenDesc (geminiDefaultModelPricing.map (·.1))).find?
      (fun fam => m == fam || (fam ++ "-".toList).isPrefixOf m) with
  | some fam => fam
  | none => m

/-- Pricing data produced by the Gemini `_pricing_for_model`. -/
structure GeminiPricingInfo where
  entry : GeminiPricing
  pricingSource : List Char
  pricingModelFamily : List Char
  deriving DecidableEq

/-- `_pricing_for_model` of `gemini_service.py` (environment reads resolved
into `ov`, as for the Claude version). -/
def geminiPricingForModel (ov : GeminiPricingOverrides) (model : List Char) :
    GeminiPricingInfo :=
  let family := geminiNormalizeModelFamily model
  let base := match geminiDefaultModelPricing.find? (fun kv => kv.1 == family) with
    | some kv => kv.2
    | none => ⟨0, 0⟩
  let entry : GeminiPricing :=
    { inputPerMtokUsd := ov.inputPerMtokUsd.getD base.inputPerMtokUsd
      outputPerMtokUsd := ov.outputPerMtokUsd.getD base.outputPerMtokUsd }
  let source :=
    if ov.inputPerMtokUsd.isSome || ov.outputPerMtokUsd.isSome then
      "env_override".toList
    else geminiPricingSourceVersion
  ⟨entry, source, family⟩

/-- Token usage of one Gemini call (prompt and candidate token counts). -/
structure GeminiUsage where
  inputTokens : ℕ
  outputTokens : ℕ
  deriving DecidableEq

/-- `_estimate_cost_usd` of `gemini_service.py`, including the higher
second pricing tier applied to the pro families when the prompt exceeds
200,000 input tokens. -/
def geminiEstimateCostUsd (ov : GeminiPricingOverrides) (model : List Char)
    (usage : GeminiUsage) : ℚ :=
  let p := (geminiPricingForModel ov model).entry
  let family := geminiNormalizeModelFamily model
  let rates : ℚ × ℚ :=
    if (family = "gemini-3.1-pro-preview".toList ∨ family = "gemini-3-pro-preview".toList)
        ∧ 200000 < usage.inputTokens then (4, 18)
    else if family = "gemini-2.5-pro".toList ∧ 200000 < usage.inputTokens then (5 / 2, 15)
    else (p.inputPerMtokUsd, p.outputPerMtokUsd)
  roundTo 8 ((usage.inputTokens : ℚ) / 1000000 * rates.1
    + (usage.outputTokens : ℚ) / 1000000 * rates.2)

/-- The cost formula exactly as the specification words it for any Gemini
pricing entry: linear combination of usage counts times the entry's
per-million rates, rounded to 8 decimals. -/
def specEstimatedCostGemini (p : GeminiPricing) (usage : GeminiUsage) : ℚ :=
  roundTo 8 ((usage.inputTokens : ℚ) / 1000000 * p.inputPerMtokUsd
    + (usage.outputTokens : ℚ) / 1000000 * p.outputPerMtokUsd)

/-- One `llm` audit record as the services build it.  Keys that some code
paths leave out of the Python dict are `Option` fields. -/
structure LlmInfo where
  provider : List Char
  model : List Char
  pricingModelFamily : Option (List Char) := none
  pricingSource : Option (List Char) := none
  inputTokens : ℕ := 0
  outputTokens : ℕ := 0
  cacheCreationInputTokens : ℕ := 0
  cacheReadInputTokens : ℕ := 0
  estimatedCostUsd : ℚ := 0
  calls : Option ℕ := none
  purpose : Option (List Char) := none
  chunkCount : Option ℕ := none
  chunkSuccessCount : Option ℕ := none
  inputMode : Option (List Char) := none
  itemsCount : Option ℕ := none
  deriving DecidableEq

/-- `_llm_meta` of `claude_service.py`: audit record of one successful
Anthropic call.  `messageModel` is `getattr(message, "model", None)`. -/
def claudeLlmMeta (ov : ClaudePricingOverrides) (messageModel : Option (List Char))
    (requestModel : List Char) (usage : ClaudeUsage) : LlmInfo :=
  let actualModel := match messageModel with
    | some m => if m = [] then requestModel else m
    | none => requestModel
  let pricing := claudePricingForModel ov actualModel
  { provider := "anthropic".toList
    model := actualModel
    pricingModelFamily := some pricing.pricingModelFamily
    pricingSource := some pricing.pricingSource
    inputTokens := usage.inputTokens
    outputTokens := usage.outputTokens
    cacheCreationInputTokens := usage.cacheCreationInputTokens
    cacheReadInputTokens := usage.cacheReadInputTokens
    estimatedCostUsd := claudeEstimateCostUsd ov actualModel usage }

/-- `_llm_meta` of `gemini_service.py`. -/
def geminiLlmMeta (ov : GeminiPricingOverrides) (model : List Char)
    (usage : GeminiUsage) : LlmInfo :=
  let pricing := geminiPricingForModel ov model
  let actualModel := geminiNormalizeModelName model
  { provider := "google".toList
    model := actualModel
    pricingModelFamily := some pricing.pricingModelFamily
    pricingSource := some pricing.pricingSource
    inputTokens := usage.inputTokens
    outputTokens := usage.outputTokens
    cacheCreationInputTokens := 0
    cacheReadInputTokens := 0
    estimatedCostUsd := geminiEstimateCostUsd ov actualModel usage }

/-- The list `models` of `_merge_llm_metas`: model names of the records,
keeping only truthy (non-empty) ones. -/
def modelsOf (metas : List LlmInfo) : List (List Char) :=
  metas.filterMap (fun m => if m.model = [] then none else some m.model)

/-- `_merge_llm_metas` of `claude_service.py`.  In the typed embedding every
element of `metas` is a record, so the `isinstance` filter keeps the whole
list. -/
def mergeLlmMetas (metas : List LlmInfo) (purpose : List Char) : LlmInfo :=
  match metas with
  | [] =>
    { provider := "none".toList
      model := "none".toList
      pricingModelFamily := some []
      pricingSource := some anthropicPricingSourceVersion }
  | _ =>
    let providers := (metas.map (·.provider)).dedup
    let models := modelsOf metas
    let families := (metas.filterMap (·.pricingModelFamily)).dedup
    let sources := (metas.map (fun m => m.pricingSource.getD "default".toList)).dedup
    { provider := match providers with
        | [p] => p
        | _ => "mixed".toList
      model := match models with
        | [] => "multiple".toList
        | m :: rest => if ((m :: rest).dedup).length = 1 then m else "multiple".toList
      pricingModelFamily := some (match families with
        | [f] => f
        | _ => "mixed".toList)
      pricingSource := some (match sources with
        | [s] => s
        | _ => "mixed".toList)
      inputTokens := (metas.map (·.inputTokens)).sum
      outputTokens := (metas.map (·.outputTokens)).sum
      cacheCreationInputTokens := (metas.map (·.cacheCreationInputTokens)).sum
      cacheReadInputTokens := (metas.map (·.cacheReadInputTokens)).sum
      estimatedCostUsd := roundTo 8 ((metas.map (·.estimatedCostUsd)).sum)
      calls := some metas.length
      purpose := some purpose }

/-- Loop body of `_split_text_chunks`: starting at `start`, repeatedly slice
`text[start:min(n, start + chunkChars)]` and advance `start` to
`max(end - overlapChars, start + 1)` until the slice reaches the end. -/
def splitLoop (t : List Char) (chunkChars overlapChars start : ℕ) :
    List (List Char) :=
  if h : start < t.length then
    let e := min t.length (start + chunkChars)
    let chunk := (t.drop start).take (e - start)
    if t.length ≤ e then [chunk]
    else chunk :: splitLoop t chunkChars overlapChars (max (e - overlapChars) (start + 1))
  else []
termination_by t.length - start
decreasing_by
  have h1 := Nat.le_max_right (min t.length (start + chunkChars) - overlapChars) (start + 1)
  omega

/-- `_split_text_chunks` of `claude_service.py`: strip the text, return it
whole when short enough, otherwise cut overlapping windows. -/
def splitTextChunks (text : List Char) (chunkChars overlapChars : ℕ) :
    List (List Char) :=
  let t := pyStrip text
  if t.length = 0 then []
  else if t.length ≤ chunkChars then [t]
  else splitLoop t chunkChars overlapChars 0

/-- The start offsets of the windows cut by `splitLoop`. -/
def chunkStarts (n chunkChars overlapChars start : ℕ) : List ℕ :=
  if h : start < n then
    let e := min n (start + chunkChars)
    if n ≤ e then [start]
    else start :: chunkStarts n chunkChars overlapChars (max (e - overlapChars) (start + 1))
  else []
termination_by n - start
decreasing_by
  have h1 := Nat.le_max_right (min n (start + chunkChars) - overlapChars) (start + 1)
  omega

/-- Fuel-indexed version of `splitLoop`, used to state termination: with
fuel below the remaining length the loop is charged as unfinished
(`none`). -/
def splitLoopFuel : ℕ → List Char → ℕ → ℕ → ℕ → Option (List (List Char))
  | 0, t, _, _, start => if start < t.length then none else some []
  | fuel + 1, t, chunkChars, overlapChars, start =>
    if start < t.length then
      let e := min t.length (start + chunkChars)
      let chunk := (t.drop start).take (e - start)
      if t.length ≤ e then some [chunk]
      else
        (splitLoopFuel fuel t chunkChars overlapChars
          (max (e - overlapChars) (start + 1))).map (chunk :: ·)
    else some []

theorem chunkStarts_cover (n C O : ℕ) (hC : 1 ≤ C) :
    ∀ k s, n - s ≤ k → s < n →
      ∀ i, s ≤ i → i < n →
        ∃ st ∈ chunkStarts n C O s, st ≤ i ∧ i < min n (st + C) := by
  intro k
  induction k with
  | zero => intro s hs hsn; omega
  | succ k ih =>
    intro s hs hsn i hsi hin
    rw [chunkStarts]
    simp only [hsn, dite_true]
    by_cases h2 : n ≤ min n (s + C)
    · refine ⟨s, ?_, hsi, ?_⟩
      · simp [h2]
      · omega
    · simp only [if_neg h2]
      by_cases h3 : i < s + C
      · exact ⟨s, List.mem_cons_self _ _, hsi, by omega⟩
      · have h4 : min n (s + C) = s + C := by omega
        have h5 : max (min n (s + C) - O) (s + 1) ≤ i := by omega
        obtain ⟨st, hmem, h6, h7⟩ :=
          ih (max (min n (s + C) - O) (s + 1)) (by omega) (by omega) i h5 hin
        exact ⟨st, List.mem_cons_of_mem _ hmem, h6, h7⟩

theorem splitLoop_eq_map (t : List Char) (C O : ℕ) :
    ∀ k s, t.length - s ≤ k →
      splitLoop t C O s =
        (chunkStarts t.length C O s).map
          (fun st => (t.drop st).take (min t.length (st + C) - st)) := by
  intro k
  induction k with
  | zero =>
    intro s hs
    have h : ¬ s < t.length := by omega
    rw [splitLoop, chunkStarts]
    simp [h]
  | succ k ih =>
    intro s hs
    rw [splitLoop, chunkStarts]
    by_cases h : s < t.length
    · simp only [h, dite_true]
      by_cases h2 : t.length ≤ min t.length (s + C)
      · simp [h2]
      · simp only [if_neg h2, List.map_cons]
        have hnext : t.length - max (min t.length (s + C) - O) (s + 1) ≤ k := by
          have := Nat.le_max_right (min t.length (s + C) - O) (s + 1)
          omega
        rw [ih _ hnext]
    · simp [h]

theorem splitLoop_chunk_length (t : List Char) (C O : ℕ) :
    ∀ k s, t.length - s ≤ k → ∀ c ∈ splitLoop t C O s, c.length ≤ C := by
  intro k
  induction k with
  | zero =>
    intro s hs c hc
    have h : ¬ s < t.length := by omega
    rw [splitLoop] at hc
    simp [h] at hc
  | succ k ih =>
    intro s hs c hc
    rw [splitLoop] at hc
    by_cases h : s < t.length
    · simp only [h, dite_true] at hc
      by_cases h2 : t.length ≤ min t.length (s + C)
      · simp only [if_pos h2, List.mem_singleton] at hc
        subst hc
        simp [List.length_take, List.length_drop]
        omega
      · simp only [if_neg h2, List.mem_cons] at hc
        rcases hc with hc | hc
        · subst hc
          simp [List.length_take, List.length_drop]
          omega
        · have hnext : t.length - max (min t.length (s + C) - O) (s + 1) ≤ k := by
            have := Nat.le_max_right (min t.length (s + C) - O) (s + 1)
            omega
          exact ih _ hnext c hc
    · simp [h] at hc

theorem chunkStarts_length_8000_400 (n : ℕ) :
    ∀ k s, n - s ≤ k → 400 < n - s →
      (chunkStarts n 8000 400 s).length = (n - s - 400 + 7599) / 7600 := by
  intro k
  induction k with
  | zero => intro s hs hgt; omega
  | succ k ih =>
    intro s hs hgt
    have hsn : s < n := by omega
    rw [chunkStarts]
    simp only [hsn, dite_true]
    by_cases h2 : n ≤ min n (s + 8000)
    · simp only [if_pos h2, List.length_singleton]
      omega
    · simp only [if_neg h2, List.length_cons]
      have h4 : min n (s + 8000) = s + 8000 := by omega
      have h5 : max (min n (s + 8000) - 400) (s + 1) = s + 7600 := by omega
      rw [h5, ih (s + 7600) (by omega) (by omega)]
      omega

theorem splitLoopFuel_eq (t : List Char) (C O : ℕ) :
    ∀ fuel s, t.length - s ≤ fuel →
      splitLoopFuel fuel t C O s = some (splitLoop t C O s) := by
  intro fuel
  induction fuel with
  | zero =>
    intro s hs
    have h : ¬ s < t.length := by omega
    rw [splitLoop]
    simp [splitLoopFuel, h]
  | succ fuel ih =>
    intro s hs
    rw [splitLoop]
    simp only [splitLoopFuel]
    by_cases h : s < t.length
    · simp only [h, if_true, dite_true]
      by_cases h2 : t.length ≤ min t.length (s + C)
      · simp [h2]
      · simp only [if_neg h2]
        rw [ih _ (by
          have := Nat.le_max_right (min t.length (s + C) - O) (s + 1)
          omega)]
        simp
    · simp [h]

/-- Fuel-indexed version of `_split_text_chunks` (see `splitLoopFuel`). -/
def splitTextChunksFuel (fuel : ℕ) (text : List Char) (chunkChars overlapChars : ℕ) :
    Option (List (List Char)) :=
  let t := pyStrip text
  if t.length = 0 then some []
  else if t.length ≤ chunkChars then some [t]
  else splitLoopFuel fuel t chunkChars overlapChars 0

/-- `c` is the contiguous slice of `t` starting at offset `s`. -/
def IsSliceAt (t c : List Char) (s : ℕ) : Prop :=
  c = (t.drop s).take c.length

/-- Character index `i` of `t` falls inside at least one chunk of
`chunks`, where each chunk is a contiguous slice of `t`. -/
def IndexCovered (t : List Char) (chunks : List (List Char)) (i : ℕ) : Prop :=
  ∃ c ∈ chunks, ∃ s, IsSliceAt t c s ∧ s ≤ i ∧ i < s + c.length

/-- C4: with chunk size 8000 and overlap 400, every produced chunk has
length at most 8000; every character index of the stripped text is covered
by at least one chunk; a stripped text of length at most 8000 is returned
as a single chunk equal to the whole text; and above 8000 the number of
chunks is exactly the ceiling of `(L - 400) / 7600`. -/
theorem claim_C4_split_text_chunks (text : List Char)
    (hL : 1 ≤ (pyStrip text).length) :
    (∀ c ∈ splitTextChunks text 8000 400, c.length ≤ 8000) ∧
    (∀ i < (pyStrip text).length,
      IndexCovered (pyStrip text) (splitTextChunks text 8000 400) i) ∧
    ((pyStrip text).length ≤ 8000 → splitTextChunks text 8000 400 = [pyStrip text]) ∧
    (8000 < (pyStrip text).length →
      (splitTextChunks text 8000 400).length =
        ((pyStrip text).length - 400 + 7599) / 7600) := by
  set t := pyStrip text with ht
  have hne : ¬ t.length = 0 := by omega
  by_cases hshort : t.length ≤ 8000
  · have hchunks : splitTextChunks text 8000 400 = [t] := by
      unfold splitTextChunks
      rw [← ht]
      simp [hne, hshort]
    refine ⟨?_, ?_, fun _ => hchunks, by omega⟩
    · intro c hc
      rw [hchunks] at hc
      simp at hc
      subst hc
      exact hshort
    · intro i hi
      rw [hchunks]
      refine ⟨t, List.mem_singleton_self t, 0, ?_, by omega, by omega⟩
      unfold IsSliceAt
      simp
  · have hchunks : splitTextChunks text 8000 400 = splitLoop t 8000 400 0 := by
      unfold splitTextChunks
      rw [← ht]
      simp [hne, hshort]
    have hmap := splitLoop_eq_map t 8000 400 t.length 0 (by omega)
    refine ⟨?_, ?_, by omega, ?_⟩
    · intro c hc
      rw [hchunks] at hc
      exact splitLoop_chunk_length t 8000 400 t.length 0 (by omega) c hc
    · intro i hi
      obtain ⟨st, hmem, hle, hlt⟩ :=
        chunkStarts_cover t.length 8000 400 (by omega) t.length 0 (by omega)
          (by omega) i (by omega) hi
      have hstn : st < t.length := by omega
      refine ⟨(t.drop st).take (min t.length (st + 8000) - st), ?_, st, ?_, hle, ?_⟩
      · rw [hchunks, hmap]
        exact List.mem_map_of_mem _ hmem
      · unfold IsSliceAt
        have hlen : ((t.drop st).take (min t.length (st + 8000) - st)).length =
            min t.length (st + 8000) - st := by
          simp [List.length_take, List.length_drop]
          omega
        rw [hlen]
      · have hlen : ((t.drop st).take (min t.length (st + 8000) - st)).length =
            min t.length (st + 8000) - st := by
          simp [List.length_take, List.length_drop]
          omega
        rw [hlen]
        omega
    · intro hlong
      rw [hchunks, hmap, List.length_map]
      exact chunkStarts_length_8000_400 t.length t.length 0 (by omega) (by omega)

/-- Concrete instantiation of `claim_C4_split_text_chunks`. -/
theorem claim_C4_witness :
    1 ≤ (pyStrip "  hello world  ".toList).length ∧
    ((∀ c ∈ splitTextChunks "  hello world  ".toList 8000 400, c.length ≤ 8000) ∧
    (∀ i < (pyStrip "  hello world  ".toList).length,
      IndexCovered (pyStrip "  hello world  ".toList)
        (splitTextChunks "  hello world  ".toList 8000 400) i) ∧
    ((pyStrip "  hello world  ".toList).length ≤ 8000 →
      splitTextChunks "  hello world  ".toList 8000 400 =
        [pyStrip "  hello world  ".toList]) ∧
    (8000 < (pyStrip "  hello world  ".toList).length →
      (splitTextChunks "  hello world  ".toList 8000 400).length =
        ((pyStrip "  hello world  ".toList).length - 400 + 7599) / 7600)) :=
  ⟨by decide, claim_C4_split_text_chunks _ (by decide)⟩

/-- C10: `_split_text_chunks` terminates on every input: any fuel at least
the stripped length makes the fuel-charged loop finish with the same result
as the recursive definition, and the window start strictly increases on
every iteration (`start` advances to `max(end - overlap, start + 1)`). -/
theorem claim_C10_split_text_chunks_terminates :
    (∀ (text : List Char) (chunkChars overlapChars fuel : ℕ),
      (pyStrip text).length ≤ fuel →
      splitTextChunksFuel fuel text chunkChars overlapChars =
        some (splitTextChunks text chunkChars overlapChars)) ∧
    (∀ (t : List Char) (chunkChars overlapChars start : ℕ),
      start < t.length →
      start < max (min t.length (start + chunkChars) - overlapChars) (start + 1)) := by
  constructor
  · intro text C O fuel hfuel
    unfold splitTextChunksFuel splitTextChunks
    by_cases h0 : (pyStrip text).length = 0
    · simp [h0]
    · by_cases h1 : (pyStrip text).length ≤ C
      · simp [h0, h1]
      · simp only [h0, h1, if_false]
        exact splitLoopFuel_eq (pyStrip text) C O fuel 0 (by omega)
  · intro t C O start hstart
    have := Nat.le_max_right (min t.length (start + C) - O) (start + 1)
    omega

/-- Concrete instantiation of `claim_C10_split_text_chunks_terminates`. -/
theorem claim_C10_witness :
    splitTextChunksFuel 20 "overlap test string".toList 7 3 =
      some (splitTextChunks "overlap test string".toList 7 3) :=
  claim_C10_split_text_chunks_terminates.1 "overlap test string".toList 7 3 20 (by decide)


/-- The candidate facts of `_merge_fact_lists` in iteration order: for each
index `i` below the longest list length, visit every fact list in order and
take its `i`-th element when present (round-robin interleaving across
chunks). -/
def roundRobinCandidates (factLists : List (List (List Char))) : List (List Char) :=
  ((List.range ((factLists.map List.length).foldr max 0)).map
    (fun i => factLists.filterMap (fun facts => facts[i]?))).flatten

/-- Sequential body of `_merge_fact_lists`: strip each candidate, skip empty
or already-seen (under `normalizeFactKey`) facts, append the rest and stop
as soon as `maxItems` facts are collected. -/
def mergeLoop : List (List Char) → List (List Char) → List (List Char) → ℕ →
    List (List Char)
  | [], _, merged, _ => merged
  | f :: rest, normalizedSeen, merged, maxItems =>
    if pyStrip f = [] then mergeLoop rest normalizedSeen merged maxItems
    else if normalizeFactKey (pyStrip f) ∈ normalizedSeen then
      mergeLoop rest normalizedSeen merged maxItems
    else if maxItems ≤ (merged ++ [pyStrip f]).length then merged ++ [pyStrip f]
    else
      mergeLoop rest (normalizeFactKey (pyStrip f) :: normalizedSeen)
        (merged ++ [pyStrip f]) maxItems

/-- `_merge_fact_lists` of `claude_service.py`. -/
def mergeFactLists (factLists : List (List (List Char))) (maxItems : ℕ) :
    List (List Char) :=
  mergeLoop (roundRobinCandidates factLists) [] [] maxItems

theorem range_map_getElem_toList {α : Type _} (l : List α) :
    ((List.range l.length).map (fun i => (l[i]?).toList)).flatten = l := by
  induction l with
  | nil => simp
  | cons a tl ih =>
    have h1 : (a :: tl).length = tl.length + 1 := rfl
    rw [h1, List.range_succ_eq_map, List.map_cons, List.flatten_cons, List.map_map]
    have h2 : ((fun i => (((a :: tl))[i]?).toList) ∘ Nat.succ) =
        fun i => ((tl)[i]?).toList := by
      funext i
      simp
    rw [h2, ih]
    simp

theorem roundRobinCandidates_single (l : List (List Char)) :
    roundRobinCandidates [l] = l := by
  unfold roundRobinCandidates
  have h1 : ([l].map List.length).foldr max 0 = l.length := by
    simp
  rw [h1]
  have h3 : (List.range l.length).map (fun i => [l].filterMap (fun facts => facts[i]?)) =
      (List.range l.length).map (fun i => (l[i]?).toList) :=
    List.map_congr_left (fun i _ => by
      rcases h : l[i]? with _ | x <;> simp [List.filterMap_cons, h])
  rw [h3]
  exact range_map_getElem_toList l

theorem mergeLoop_length_le :
    ∀ (candidates seen merged : List (List Char)) (maxItems : ℕ),
      merged.length < maxItems →
      (mergeLoop candidates seen merged maxItems).length ≤ maxItems := by
  intro candidates
  induction candidates with
  | nil => intro seen merged maxItems h; simpa [mergeLoop] using h.le
  | cons f rest ih =>
    intro seen merged maxItems h
    simp only [mergeLoop]
    by_cases h1 : pyStrip f = []
    · rw [if_pos h1]
      exact ih seen merged maxItems h
    · rw [if_neg h1]
      by_cases h2 : normalizeFactKey (pyStrip f) ∈ seen
      · rw [if_pos h2]
        exact ih seen merged maxItems h
      · rw [if_neg h2]
        by_cases h3 : maxItems ≤ (merged ++ [pyStrip f]).length
        · rw [if_pos h3]
          simp only [List.length_append, List.length_singleton] at h3 ⊢
          omega
        · rw [if_neg h3]
          refine ih _ _ maxItems ?_
          simp only [List.length_append, List.length_singleton] at h3 ⊢
          omega

theorem mergeLoop_all_new :
    ∀ (candidates seen merged : List (List Char)) (maxItems : ℕ),
      (∀ f ∈ candidates, pyStrip f = f ∧ f ≠ []) →
      ((candidates.map normalizeFactKey).Nodup) →
      (∀ f ∈ candidates, normalizeFactKey f ∉ seen) →
      merged.length + candidates.length ≤ maxItems →
      mergeLoop candidates seen merged maxItems = merged ++ candidates := by
  intro candidates
  induction candidates with
  | nil => intro seen merged maxItems _ _ _ _; simp [mergeLoop]
  | cons f rest ih =>
    intro seen merged maxItems hstr hnodup hseen hlen
    have hf := hstr f (List.mem_cons_self f rest)
    simp only [mergeLoop, hf.1]
    rw [if_neg hf.2]
    rw [if_neg (hseen f (List.mem_cons_self f rest))]
    simp only [List.map_cons, List.nodup_cons] at hnodup
    by_cases hfull : maxItems ≤ (merged ++ [f]).length
    · have hrest : rest = [] := by
        have h5 : (merged ++ [f]).length = merged.length + 1 := by simp
        rw [h5] at hfull
        have h6 : (f :: rest).length = rest.length + 1 := by simp
        rw [h6] at hlen
        have : rest.length = 0 := by omega
        exact List.length_eq_zero.mp this
      subst hrest
      rw [if_pos hfull]
    · rw [if_neg hfull]
      rw [ih (normalizeFactKey f :: seen) (merged ++ [f]) maxItems
        (fun g hg => hstr g (List.mem_cons_of_mem f hg))
        hnodup.2
        (by
          intro g hg
          simp only [List.mem_cons]
          push_neg
          refine ⟨?_, hseen g (List.mem_cons_of_mem f hg)⟩
          intro heq
          exact hnodup.1 (heq ▸ List.mem_map_of_mem normalizeFactKey hg))
        (by
          have h5 : (merged ++ [f]).length = merged.length + 1 := by simp
          have h6 : (f :: rest).length = rest.length + 1 := by simp
          rw [h5]
          rw [h6] at hlen
          omega)]
      simp

/-- C5 (amended): `_merge_fact_lists` never returns more than the cap of
24 facts; a single fact list whose entries are whitespace-stripped,
non-empty, and pairwise distinct under case/whitespace normalization and
which has at most 24 entries is returned unchanged; and in general the
merge returns exactly the round-robin interleaving of the input lists when
the interleaved candidates are stripped, non-empty, distinct under
normalization and at most 24 in number. -/
theorem claim_C5_merge_fact_lists :
    (∀ factLists : List (List (List Char)),
      (mergeFactLists factLists 24).length ≤ 24) ∧
    (∀ facts : List (List Char),
      (∀ f ∈ facts, pyStrip f = f ∧ f ≠ []) →
      (facts.map normalizeFactKey).Nodup →
      facts.length ≤ 24 →
      mergeFactLists [facts] 24 = facts) ∧
    (∀ factLists : List (List (List Char)),
      (∀ f ∈ roundRobinCandidates factLists, pyStrip f = f ∧ f ≠ []) →
      ((roundRobinCandidates factLists).map normalizeFactKey).Nodup →
      (roundRobinCandidates factLists).length ≤ 24 →
      mergeFactLists factLists 24 = roundRobinCandidates factLists) := by
  refine ⟨?_, ?_, ?_⟩
  · intro factLists
    exact mergeLoop_length_le _ [] [] 24 (by simp)
  · intro facts hstr hnodup hlen
    unfold mergeFactLists
    rw [roundRobinCandidates_single]
    have := mergeLoop_all_new facts [] [] 24 hstr hnodup (by simp) (by simpa using hlen)
    simpa using this
  · intro factLists hstr hnodup hlen
    unfold mergeFactLists
    have := mergeLoop_all_new (roundRobinCandidates factLists) [] [] 24 hstr hnodup
      (by simp) (by simpa using hlen)
    simpa using this

/-- The claim as frozen is false on the code: the entry `" a"` is
non-empty, trivially distinct under normalization, and within the cap, yet
`_merge_fact_lists` returns it stripped, not unchanged. -/
theorem claim_C5_counterexample :
    (∀ f ∈ [" a".toList], f ≠ []) ∧
    (([" a".toList].map normalizeFactKey)).Nodup ∧
    [" a".toList].length ≤ 24 ∧
    mergeFactLists [[" a".toList]] 24 = ["a".toList] ∧
    mergeFactLists [[" a".toList]] 24 ≠ [" a".toList] := by
  decide

/-- Concrete instantiation of `claim_C5_merge_fact_lists`. -/
theorem claim_C5_witness :
    mergeFactLists [["alpha one".toList, "beta".toList]] 24 =
      ["alpha one".toList, "beta".toList] ∧
    mergeFactLists [["alpha one".toList], ["beta".toList]] 24 =
      roundRobinCandidates [["alpha one".toList], ["beta".toList]] :=
  ⟨claim_C5_merge_fact_lists.2.1 _ (by decide) (by decide) (by decide),
   claim_C5_merge_fact_lists.2.2 _ (by decide) (by decide) (by decide)⟩

/-- A summary score breakdown as read from the model reply: each component
is `some` rational when the dict holds a numeric value, `none` when the key
is missing or the value is non-numeric. -/
structure ScoreBreakdown where
  importance : Option ℚ
  novelty : Option ℚ
  actionability : Option ℚ
  reliability : Option ℚ
  relevance : Option ℚ
  deriving DecidableEq

/-- `_clamp01` with default `0.5`: numeric values are clamped into `[0,1]`,
missing or non-numeric values fall back to the default. -/
def clamp01 (v : Option ℚ) : ℚ :=
  match v with
  | none => 1 / 2
  | some x => if x < 0 then 0 else if 1 < x then 1 else x

/-- The weight table of `_summary_composite_score` in dict order. -/
def scoreWeights : List ((ScoreBreakdown → Option ℚ) × ℚ) :=
  [(ScoreBreakdown.importance, 38 / 100),
   (ScoreBreakdown.novelty, 22 / 100),
   (ScoreBreakdown.actionability, 18 / 100),
   (ScoreBreakdown.reliability, 17 / 100),
   (ScoreBreakdown.relevance, 5 / 100)]

/-- `_summary_composite_score`, textually identical in `claude_service.py`
and `gemini_service.py`: accumulate clamped components times weights over
the weight table, then round to 4 decimals. -/
def summaryCompositeScore (breakdown : ScoreBreakdown) : ℚ :=
  roundTo 4 (scoreWeights.foldl
    (fun total kw => total + clamp01 (kw.1 breakdown) * kw.2) 0)

theorem clamp01_nonneg (v : Option ℚ) : 0 ≤ clamp01 v := by
  unfold clamp01
  rcases v with _ | x
  · norm_num
  · dsimp only
    split_ifs <;> linarith

theorem clamp01_le_one (v : Option ℚ) : clamp01 v ≤ 1 := by
  unfold clamp01
  rcases v with _ | x
  · norm_num
  · dsimp only
    split_ifs <;> linarith

/-- C6: the composite score is the weighted sum of the five clamped
components with the fixed weights, rounded to 4 decimals; missing
components default to `0.5`; the weights sum to 1; an all-1.0 breakdown
scores exactly 1 and an all-0.0 breakdown exactly 0; and every composite
score lies in `[0, 1]`. -/
theorem claim_C6_summary_composite_score :
    (∀ b : ScoreBreakdown,
      summaryCompositeScore b =
        roundTo 4 (clamp01 b.importance * (38 / 100) + clamp01 b.novelty * (22 / 100)
          + clamp01 b.actionability * (18 / 100) + clamp01 b.reliability * (17 / 100)
          + clamp01 b.relevance * (5 / 100))) ∧
    (∀ v : Option ℚ, 0 ≤ clamp01 v ∧ clamp01 v ≤ 1) ∧
    clamp01 none = 1 / 2 ∧
    ((38 : ℚ) / 100 + 22 / 100 + 18 / 100 + 17 / 100 + 5 / 100 = 1) ∧
    summaryCompositeScore ⟨some 1, some 1, some 1, some 1, some 1⟩ = 1 ∧
    summaryCompositeScore ⟨some 0, some 0, some 0, some 0, some 0⟩ = 0 ∧
    (∀ b : ScoreBreakdown,
      0 ≤ summaryCompositeScore b ∧ summaryCompositeScore b ≤ 1) := by
  have hfold : ∀ b : ScoreBreakdown,
      scoreWeights.foldl (fun total kw => total + clamp01 (kw.1 b) * kw.2) 0 =
        clamp01 b.importance * (38 / 100) + clamp01 b.novelty * (22 / 100)
          + clamp01 b.actionability * (18 / 100) + clamp01 b.reliability * (17 / 100)
          + clamp01 b.relevance * (5 / 100) := by
    intro b
    simp only [scoreWeights, List.foldl_cons, List.foldl_nil]
    ring
  have hone : roundTo 4 (1 : ℚ) = 1 := by
    have := roundTo_of_mul_eq_intCast 4 1 10000 (by norm_num)
    rw [this]
    norm_num
  refine ⟨?_, fun v => ⟨clamp01_nonneg v, clamp01_le_one v⟩, rfl, by norm_num, ?_, ?_, ?_⟩
  · intro b
    unfold summaryCompositeScore
    rw [hfold]
  · unfold summaryCompositeScore
    rw [hfold]
    have hs : clamp01 (some (1 : ℚ)) = 1 := by norm_num [clamp01]
    show roundTo 4 (clamp01 (some 1) * (38 / 100) + clamp01 (some 1) * (22 / 100)
      + clamp01 (some 1) * (18 / 100) + clamp01 (some 1) * (17 / 100)
      + clamp01 (some 1) * (5 / 100)) = 1
    rw [hs]
    rw [show (1 : ℚ) * (38 / 100) + 1 * (22 / 100) + 1 * (18 / 100) + 1 * (17 / 100)
      + 1 * (5 / 100) = 1 by norm_num]
    exact hone
  · unfold summaryCompositeScore
    rw [hfold]
    have hs : clamp01 (some (0 : ℚ)) = 0 := by norm_num [clamp01]
    show roundTo 4 (clamp01 (some 0) * (38 / 100) + clamp01 (some 0) * (22 / 100)
      + clamp01 (some 0) * (18 / 100) + clamp01 (some 0) * (17 / 100)
      + clamp01 (some 0) * (5 / 100)) = 0
    rw [hs]
    rw [show (0 : ℚ) * (38 / 100) + 0 * (22 / 100) + 0 * (18 / 100) + 0 * (17 / 100)
      + 0 * (5 / 100) = 0 by norm_num]
    have := roundTo_of_mul_eq_intCast 4 0 0 (by norm_num)
    rw [this]
    norm_num
  · intro b
    unfold summaryCompositeScore
    rw [hfold]
    have h1 := clamp01_nonneg b.importance
    have h2 := clamp01_nonneg b.novelty
    have h3 := clamp01_nonneg b.actionability
    have h4 := clamp01_nonneg b.reliability
    have h5 := clamp01_nonneg b.relevance
    have g1 := clamp01_le_one b.importance
    have g2 := clamp01_le_one b.novelty
    have g3 := clamp01_le_one b.actionability
    have g4 := clamp01_le_one b.reliability
    have g5 := clamp01_le_one b.relevance
    constructor
    · apply roundTo_nonneg
      nlinarith
    · have hle : clamp01 b.importance * (38 / 100) + clamp01 b.novelty * (22 / 100)
          + clamp01 b.actionability * (18 / 100) + clamp01 b.reliability * (17 / 100)
          + clamp01 b.relevance * (5 / 100) ≤ 1 := by nlinarith
      have hm := roundTo_mono 4 hle
      rw [hone] at hm
      exact hm

theorem cost_term_mono {a a' : ℕ} {r r' : ℚ} (haa : a ≤ a') (hr : 0 ≤ r)
    (hrr : r ≤ r') : (a : ℚ) / 1000000 * r ≤ (a' : ℚ) / 1000000 * r' := by
  have h1 : (a : ℚ) / 1000000 ≤ (a' : ℚ) / 1000000 := by
    apply div_le_div_of_nonneg_right ?_ (by norm_num)
    exact_mod_cast haa
  exact mul_le_mul h1 hrr hr (by positivity)

/-- C1 (amended): the Anthropic `_estimate_cost_usd` is exactly the
linear-combination-of-rates formula at the resolved pricing entry, is
non-negative for entries with non-negative rates, and is monotone in every
usage field.  The Gemini `_estimate_cost_usd` equals the same formula at
its entry except on the documented tier branch: for the pro families above
200,000 input tokens fixed tier rates (4/18 resp. 2.5/15 USD per Mtok)
replace the entry rates; it is non-negative for non-negative entry rates
and monotone in each usage field provided the entry rates do not exceed
the tier rates (true for every built-in entry). -/
theorem claim_C1_estimated_cost :
    (∀ (ov : ClaudePricingOverrides) (model : List Char) (u : ClaudeUsage),
      claudeEstimateCostUsd ov model u =
        specEstimatedCostClaude (claudePricingForModel ov model).entry u) ∧
    (∀ (p : ClaudePricing) (u : ClaudeUsage),
      0 ≤ p.inputPerMtokUsd → 0 ≤ p.outputPerMtokUsd →
      0 ≤ p.cacheWritePerMtokUsd → 0 ≤ p.cacheReadPerMtokUsd →
      0 ≤ specEstimatedCostClaude p u) ∧
    (∀ (p : ClaudePricing) (u u' : ClaudeUsage),
      0 ≤ p.inputPerMtokUsd → 0 ≤ p.outputPerMtokUsd →
      0 ≤ p.cacheWritePerMtokUsd → 0 ≤ p.cacheReadPerMtokUsd →
      u.inputTokens ≤ u'.inputTokens → u.outputTokens ≤ u'.outputTokens →
      u.cacheCreationInputTokens ≤ u'.cacheCreationInputTokens →
      u.cacheReadInputTokens ≤ u'.cacheReadInputTokens →
      specEstimatedCostClaude p u ≤ specEstimatedCostClaude p u') ∧
    (∀ (ov : GeminiPricingOverrides) (model : List Char) (u : GeminiUsage),
      u.inputTokens ≤ 200000 ∨
        (geminiNormalizeModelFamily model ≠ "gemini-3.1-pro-preview".toList ∧
         geminiNormalizeModelFamily model ≠ "gemini-3-pro-preview".toList ∧
         geminiNormalizeModelFamily model ≠ "gemini-2.5-pro".toList) →
      geminiEstimateCostUsd ov model u =
        specEstimatedCostGemini (geminiPricingForModel ov model).entry u) ∧
    (∀ (ov : GeminiPricingOverrides) (model : List Char) (u : GeminiUsage),
      (geminiNormalizeModelFamily model = "gemini-3.1-pro-preview".toList ∨
       geminiNormalizeModelFamily model = "gemini-3-pro-preview".toList) →
      200000 < u.inputTokens →
      geminiEstimateCostUsd ov model u =
        roundTo 8 ((u.inputTokens : ℚ) / 1000000 * 4
          + (u.outputTokens : ℚ) / 1000000 * 18)) ∧
    (∀ (ov : GeminiPricingOverrides) (model : List Char) (u : GeminiUsage),
      geminiNormalizeModelFamily model = "gemini-2.5-pro".toList →
      200000 < u.inputTokens →
      geminiEstimateCostUsd ov model u =
        roundTo 8 ((u.inputTokens : ℚ) / 1000000 * (5 / 2)
          + (u.outputTokens : ℚ) / 1000000 * 15)) ∧
    (∀ (ov : GeminiPricingOverrides) (model : List Char) (u : GeminiUsage),
      0 ≤ (geminiPricingForModel ov model).entry.inputPerMtokUsd →
      0 ≤ (geminiPricingForModel ov model).entry.outputPerMtokUsd →
      0 ≤ geminiEstimateCostUsd ov model u) ∧
    (∀ (ov : GeminiPricingOverrides) (model : List Char) (u u' : GeminiUsage),
      0 ≤ (geminiPricingForModel ov model).entry.inputPerMtokUsd →
      0 ≤ (geminiPricingForModel ov model).entry.outputPerMtokUsd →
      ((geminiNormalizeModelFamily model = "gemini-3.1-pro-preview".toList ∨
        geminiNormalizeModelFamily model = "gemini-3-pro-preview".toList) →
        (geminiPricingForModel ov model).entry.inputPerMtokUsd ≤ 4 ∧
        (geminiPricingForModel ov model).entry.outputPerMtokUsd ≤ 18) →
      (geminiNormalizeModelFamily model = "gemini-2.5-pro".toList →
        (geminiPricingForModel ov model).entry.inputPerMtokUsd ≤ 5 / 2 ∧
        (geminiPricingForModel ov model).entry.outputPerMtokUsd ≤ 15) →
      u.inputTokens ≤ u'.inputTokens → u.outputTokens ≤ u'.outputTokens →
      geminiEstimateCostUsd ov model u ≤ geminiEstimateCostUsd ov model u') := by
  refine ⟨?_, ?_, ?_, ?_, ?_, ?_, ?_, ?_⟩
  · intro ov model u
    rfl
  · intro p u h1 h2 h3 h4
    unfold specEstimatedCostClaude
    apply roundTo_nonneg
    apply add_nonneg
    apply add_nonneg
    apply add_nonneg
    all_goals exact mul_nonneg (by positivity) (by assumption)
  · intro p u u' h1 h2 h3 h4 m1 m2 m3 m4
    unfold specEstimatedCostClaude
    apply roundTo_mono
    have t1 := cost_term_mono m1 h1 (le_refl p.inputPerMtokUsd)
    have t2 := cost_term_mono m2 h2 (le_refl p.outputPerMtokUsd)
    have t3 := cost_term_mono m3 h3 (le_refl p.cacheWritePerMtokUsd)
    have t4 := cost_term_mono m4 h4 (le_refl p.cacheReadPerMtokUsd)
    linarith
  · intro ov model u h
    have hcond1 : ¬ ((geminiNormalizeModelFamily model = "gemini-3.1-pro-preview".toList ∨
        geminiNormalizeModelFamily model = "gemini-3-pro-preview".toList)
        ∧ 200000 < u.inputTokens) := by
      rcases h with h | h
      · intro hc; omega
      · intro hc
        rcases hc.1 with hc1 | hc1
        · exact h.1 hc1
        · exact h.2.1 hc1
    have hcond2 : ¬ (geminiNormalizeModelFamily model = "gemini-2.5-pro".toList
        ∧ 200000 < u.inputTokens) := by
      rcases h with h | h
      · intro hc; omega
      · intro hc; exact h.2.2 hc.1
    simp only [geminiEstimateCostUsd, specEstimatedCostGemini]
    rw [if_neg hcond1, if_neg hcond2]
  · intro ov model u hfam hin
    simp only [geminiEstimateCostUsd]
    rw [if_pos ⟨hfam, hin⟩]
  · intro ov model u hfam hin
    have hcond1 : ¬ ((geminiNormalizeModelFamily model = "gemini-3.1-pro-preview".toList ∨
        geminiNormalizeModelFamily model = "gemini-3-pro-preview".toList)
        ∧ 200000 < u.inputTokens) := by
      intro hc
      rcases hc.1 with hc1 | hc1 <;> rw [hfam] at hc1 <;> exact absurd hc1 (by decide)
    simp only [geminiEstimateCostUsd]
    rw [if_neg hcond1, if_pos ⟨hfam, hin⟩]
  · intro ov model u h1 h2
    simp only [geminiEstimateCostUsd]
    apply roundTo_nonneg
    split_ifs with hc1 hc2
    · apply add_nonneg <;> apply mul_nonneg (by positivity) (by norm_num)
    · apply add_nonneg <;> apply mul_nonneg (by positivity) (by norm_num)
    · apply add_nonneg <;> apply mul_nonneg (by positivity) (by assumption)
  · intro ov model u u' h1 h2 htier3 htier25 m1 m2
    simp only [geminiEstimateCostUsd]
    apply roundTo_mono
    by_cases hf3 : geminiNormalizeModelFamily model = "gemini-3.1-pro-preview".toList ∨
        geminiNormalizeModelFamily model = "gemini-3-pro-preview".toList
    · have hne25 : ¬ geminiNormalizeModelFamily model = "gemini-2.5-pro".toList := by
        rcases hf3 with hc1 | hc1 <;> rw [hc1] <;> decide
      by_cases ha : 200000 < u.inputTokens
      · have ha' : 200000 < u'.inputTokens := by omega
        rw [if_pos ⟨hf3, ha⟩, if_pos ⟨hf3, ha'⟩]
        have t1 := cost_term_mono m1 (by norm_num : (0:ℚ) ≤ 4) (le_refl 4)
        have t2 := cost_term_mono m2 (by norm_num : (0:ℚ) ≤ 18) (le_refl 18)
        exact add_le_add t1 t2
      · by_cases ha' : 200000 < u'.inputTokens
        · rw [if_neg (by intro hc; exact ha hc.2),
            if_neg (by intro hc; exact hne25 hc.1),
            if_pos ⟨hf3, ha'⟩]
          have hb := htier3 hf3
          have t1 := cost_term_mono m1 h1 hb.1
          have t2 := cost_term_mono m2 h2 hb.2
          exact add_le_add t1 t2
        · rw [if_neg (by intro hc; exact ha hc.2),
            if_neg (by intro hc; exact hne25 hc.1),
            if_neg (by intro hc; exact ha' hc.2),
            if_neg (by intro hc; exact hne25 hc.1)]
          have t1 := cost_term_mono m1 h1 (le_refl _)
          have t2 := cost_term_mono m2 h2 (le_refl _)
          exact add_le_add t1 t2
    · by_cases hf25 : geminiNormalizeModelFamily model = "gemini-2.5-pro".toList
      · by_cases ha : 200000 < u.inputTokens
        · have ha' : 200000 < u'.inputTokens := by omega
          rw [if_neg (by intro hc; exact hf3 hc.1), if_pos ⟨hf25, ha⟩,
            if_neg (by intro hc; exact hf3 hc.1), if_pos ⟨hf25, ha'⟩]
          have t1 := cost_term_mono m1 (by norm_num : (0:ℚ) ≤ 5 / 2) (le_refl _)
          have t2 := cost_term_mono m2 (by norm_num : (0:ℚ) ≤ 15) (le_refl _)
          exact add_le_add t1 t2
        · by_cases ha' : 200000 < u'.inputTokens
          · rw [if_neg (by intro hc; exact hf3 hc.1),
              if_neg (by intro hc; exact ha hc.2),
              if_neg (by intro hc; exact hf3 hc.1), if_pos ⟨hf25, ha'⟩]
            have hb := htier25 hf25
            have t1 := cost_term_mono m1 h1 hb.1
            have t2 := cost_term_mono m2 h2 hb.2
            exact add_le_add t1 t2
          · rw [if_neg (by intro hc; exact hf3 hc.1),
              if_neg (by intro hc; exact ha hc.2),
              if_neg (by intro hc; exact hf3 hc.1),
              if_neg (by intro hc; exact ha' hc.2)]
            have t1 := cost_term_mono m1 h1 (le_refl _)
            have t2 := cost_term_mono m2 h2 (le_refl _)
            exact add_le_add t1 t2
      · rw [if_neg (by intro hc; exact hf3 hc.1),
          if_neg (by intro hc; exact hf25 hc.1),
          if_neg (by intro hc; exact hf3 hc.1),
          if_neg (by intro hc; exact hf25 hc.1)]
        have t1 := cost_term_mono m1 h1 (le_refl _)
        have t2 := cost_term_mono m2 h2 (le_refl _)
        exact add_le_add t1 t2

/-- The claim as frozen is false on the code: for the pricing entry of
`gemini-3.1-pro-preview` (2 USD input, 12 USD output per Mtok) and usage of
300,000 input tokens, the Gemini `_estimate_cost_usd` returns 1.2 USD (tier
rate 4) while the claimed linear combination with the entry rates gives
0.6 USD. -/
theorem claim_C1_counterexample :
    (geminiPricingForModel noGeminiOverrides "gemini-3.1-pro-preview".toList).entry =
      ⟨2, 12⟩ ∧
    geminiEstimateCostUsd noGeminiOverrides "gemini-3.1-pro-preview".toList
      ⟨300000, 0⟩ = 6 / 5 ∧
    specEstimatedCostGemini ⟨2, 12⟩ ⟨300000, 0⟩ = 3 / 5 ∧
    ((6 : ℚ) / 5 ≠ 3 / 5) := by
  have hfam : geminiNormalizeModelFamily "gemini-3.1-pro-preview".toList =
      "gemini-3.1-pro-preview".toList := by decide
  refine ⟨by decide, ?_, ?_, by norm_num⟩
  · simp only [geminiEstimateCostUsd]
    rw [if_pos ⟨Or.inl hfam, by decide⟩]
    rw [show (((300000 : ℕ) : ℚ) / 1000000 * 4 + ((0 : ℕ) : ℚ) / 1000000 * 18) =
      6 / 5 by norm_num]
    rw [roundTo_of_mul_eq_intCast 8 (6 / 5) 120000000 (by norm_num)]
    norm_num
  · unfold specEstimatedCostGemini
    rw [show (((300000 : ℕ) : ℚ) / 1000000 * (2 : ℚ)
      + ((0 : ℕ) : ℚ) / 1000000 * (12 : ℚ)) = 3 / 5 by norm_num]
    rw [roundTo_of_mul_eq_intCast 8 (3 / 5) 60000000 (by norm_num)]
    norm_num

/-- Concrete instantiation of `claim_C1_estimated_cost`. -/
theorem claim_C1_witness :
    0 ≤ specEstimatedCostClaude ⟨1, 5, 5 / 4, 1 / 10⟩ ⟨100, 10, 3, 4⟩ ∧
    specEstimatedCostClaude ⟨1, 5, 5 / 4, 1 / 10⟩ ⟨100, 10, 3, 4⟩ ≤
      specEstimatedCostClaude ⟨1, 5, 5 / 4, 1 / 10⟩ ⟨200, 10, 3, 4⟩ ∧
    geminiEstimateCostUsd noGeminiOverrides "gemini-2.5-flash".toList ⟨10, 10⟩ =
      specEstimatedCostGemini
        (geminiPricingForModel noGeminiOverrides "gemini-2.5-flash".toList).entry
        ⟨10, 10⟩ ∧
    geminiEstimateCostUsd noGeminiOverrides "gemini-3.1-pro-preview".toList
        ⟨300001, 7⟩ =
      roundTo 8 (((300001 : ℕ) : ℚ) / 1000000 * 4 + ((7 : ℕ) : ℚ) / 1000000 * 18) ∧
    geminiEstimateCostUsd noGeminiOverrides "gemini-2.5-pro".toList ⟨300001, 7⟩ =
      roundTo 8 (((300001 : ℕ) : ℚ) / 1000000 * (5 / 2)
        + ((7 : ℕ) : ℚ) / 1000000 * 15) ∧
    0 ≤ geminiEstimateCostUsd noGeminiOverrides "gemini-2.5-pro".toList ⟨100, 0⟩ ∧
    geminiEstimateCostUsd noGeminiOverrides "gemini-2.5-pro".toList ⟨100, 0⟩ ≤
      geminiEstimateCostUsd noGeminiOverrides "gemini-2.5-pro".toList ⟨300000, 5⟩ :=
  ⟨claim_C1_estimated_cost.2.1 ⟨1, 5, 5 / 4, 1 / 10⟩ ⟨100, 10, 3, 4⟩
      (by norm_num) (by norm_num) (by norm_num) (by norm_num),
   claim_C1_estimated_cost.2.2.1 ⟨1, 5, 5 / 4, 1 / 10⟩ ⟨100, 10, 3, 4⟩ ⟨200, 10, 3, 4⟩
      (by norm_num) (by norm_num) (by norm_num) (by norm_num)
      (by norm_num) (by norm_num) (by norm_num) (by norm_num),
   claim_C1_estimated_cost.2.2.2.1 noGeminiOverrides "gemini-2.5-flash".toList ⟨10, 10⟩
      (Or.inl (by norm_num)),
   claim_C1_estimated_cost.2.2.2.2.1 noGeminiOverrides
      "gemini-3.1-pro-preview".toList ⟨300001, 7⟩ (Or.inl (by decide)) (by norm_num),
   claim_C1_estimated_cost.2.2.2.2.2.1 noGeminiOverrides
      "gemini-2.5-pro".toList ⟨300001, 7⟩ (by decide) (by norm_num),
   claim_C1_estimated_cost.2.2.2.2.2.2.1 noGeminiOverrides
      "gemini-2.5-pro".toList ⟨100, 0⟩
      (by
        have he : (geminiPricingForModel noGeminiOverrides
            "gemini-2.5-pro".toList).entry = ⟨5 / 4, 10⟩ := by rfl
        rw [he]
        norm_num)
      (by
        have he : (geminiPricingForModel noGeminiOverrides
            "gemini-2.5-pro".toList).entry = ⟨5 / 4, 10⟩ := by rfl
        rw [he]
        norm_num),
   claim_C1_estimated_cost.2.2.2.2.2.2.2 noGeminiOverrides
      "gemini-2.5-pro".toList ⟨100, 0⟩ ⟨300000, 5⟩
      (by
        have he : (geminiPricingForModel noGeminiOverrides
            "gemini-2.5-pro".toList).entry = ⟨5 / 4, 10⟩ := by rfl
        rw [he]
        norm_num)
      (by
        have he : (geminiPricingForModel noGeminiOverrides
            "gemini-2.5-pro".toList).entry = ⟨5 / 4, 10⟩ := by rfl
        rw [he]
        norm_num)
      (by
        intro h
        exact absurd h (by decide))
      (by
        intro _
        have he : (geminiPricingForModel noGeminiOverrides
            "gemini-2.5-pro".toList).entry = ⟨5 / 4, 10⟩ := by rfl
        rw [he]
        exact ⟨by norm_num, by norm_num⟩)
      (by norm_num) (by norm_num)⟩

theorem dedup_eq_singleton_of_all_eq {α : Type _} [DecidableEq α] :
    ∀ (l : List α) (p : α), l ≠ [] → (∀ x ∈ l, x = p) → l.dedup = [p] := by
  intro l
  induction l with
  | nil => intro p h _; exact absurd rfl h
  | cons a tl ih =>
    intro p _ hall
    have ha : a = p := hall a (List.mem_cons_self a tl)
    subst ha
    cases tl with
    | nil => simp
    | cons b tl2 =>
      have hb : b = a := (hall b (by simp)).trans (hall a (by simp)).symm
      have hmem : a ∈ b :: tl2 := by rw [hb]; exact List.mem_cons_self a tl2
      rw [List.dedup_cons_of_mem hmem]
      exact ih a (by simp) (fun x hx => (hall x (List.mem_cons_of_mem a hx)).trans
        (hall a (by simp)).symm)

theorem dedup_ne_singleton_of_two {α : Type _} [DecidableEq α] {l : List α}
    {x y : α} (hx : x ∈ l) (hy : y ∈ l) (hxy : x ≠ y) :
    ∀ p, l.dedup ≠ [p] := by
  intro p heq
  have hx2 : x ∈ l.dedup := List.mem_dedup.mpr hx
  have hy2 : y ∈ l.dedup := List.mem_dedup.mpr hy
  rw [heq] at hx2 hy2
  simp at hx2 hy2
  exact hxy (hx2.trans hy2.symm)

theorem modelsOf_all_eq (metas : List LlmInfo) (mo : List Char) (hmo : mo ≠ [])
    (hall : ∀ m ∈ metas, m.model = mo) :
    modelsOf metas = metas.map (fun _ => mo) := by
  induction metas with
  | nil => rfl
  | cons m tl ih =>
    unfold modelsOf at ih ⊢
    rw [List.filterMap_cons, hall m (by simp), if_neg hmo, List.map_cons]
    rw [ih (fun x hx => hall x (List.mem_cons_of_mem m hx))]

/-- C3 (amended): merging a non-empty list of N records sums the four token
fields exactly and sets `calls = N`; `provider` and `pricing_family`
collapse to the common value when all records agree and to the sentinel
"mixed" when two records disagree; the `model` field ignores records whose
model name is empty: it equals the common value when all non-empty model
names agree and at least one exists, and is "multiple" when no record has a
non-empty model name or two non-empty model names disagree. -/
theorem claim_C3_merge_llm_metas (metas : List LlmInfo) (purpose : List Char)
    (hne : metas ≠ []) :
    (mergeLlmMetas metas purpose).inputTokens = (metas.map (·.inputTokens)).sum ∧
    (mergeLlmMetas metas purpose).outputTokens = (metas.map (·.outputTokens)).sum ∧
    (mergeLlmMetas metas purpose).cacheCreationInputTokens =
      (metas.map (·.cacheCreationInputTokens)).sum ∧
    (mergeLlmMetas metas purpose).cacheReadInputTokens =
      (metas.map (·.cacheReadInputTokens)).sum ∧
    (mergeLlmMetas metas purpose).calls = some metas.length ∧
    (∀ p, (∀ m ∈ metas, m.provider = p) → (mergeLlmMetas metas purpose).provider = p) ∧
    (∀ m1 ∈ metas, ∀ m2 ∈ metas, m1.provider ≠ m2.provider →
      (mergeLlmMetas metas purpose).provider = "mixed".toList) ∧
    (∀ fam, (∀ m ∈ metas, m.pricingModelFamily = some fam) →
      (mergeLlmMetas metas purpose).pricingModelFamily = some fam) ∧
    (∀ m1 ∈ metas, ∀ m2 ∈ metas, ∀ f1 f2,
      m1.pricingModelFamily = some f1 → m2.pricingModelFamily = some f2 → f1 ≠ f2 →
      (mergeLlmMetas metas purpose).pricingModelFamily = some "mixed".toList) ∧
    (∀ mo, mo ≠ [] → (∀ m ∈ metas, m.model = [] ∨ m.model = mo) →
      (∃ m ∈ metas, m.model = mo) →
      (mergeLlmMetas metas purpose).model = mo) ∧
    ((∀ m ∈ metas, m.model = []) → (mergeLlmMetas metas purpose).model =
      "multiple".toList) ∧
    (∀ m1 ∈ metas, ∀ m2 ∈ metas, m1.model ≠ [] → m2.model ≠ [] →
      m1.model ≠ m2.model → (mergeLlmMetas metas purpose).model =
        "multiple".toList) := by
  obtain ⟨m0, tl, rfl⟩ := List.exists_cons_of_ne_nil hne
  refine ⟨rfl, rfl, rfl, rfl, rfl, ?_, ?_, ?_, ?_, ?_, ?_, ?_⟩
  · intro p hall
    have hd : (((m0 :: tl).map (·.provider)).dedup) = [p] :=
      dedup_eq_singleton_of_all_eq _ p (by simp)
        (by
          intro x hx
          obtain ⟨m, hm, rfl⟩ := List.mem_map.mp hx
          exact hall m hm)
    show (match ((m0 :: tl).map (·.provider)).dedup with
      | [p] => p
      | _ => "mixed".toList) = p
    rw [hd]
  · intro m1 h1 m2 h2 hne12
    have hnotone := dedup_ne_singleton_of_two
      (List.mem_map_of_mem (·.provider) h1)
      (List.mem_map_of_mem (·.provider) h2) hne12
    show (match ((m0 :: tl).map (·.provider)).dedup with
      | [p] => p
      | _ => "mixed".toList) = "mixed".toList
    rcases hd : ((m0 :: tl).map (·.provider)).dedup with _ | ⟨p, _ | ⟨q, rest⟩⟩
    · rw [hd]
    · exact absurd hd (hnotone p)
    · rw [hd]
  · intro fam hall
    have hd : (((m0 :: tl).filterMap (·.pricingModelFamily)).dedup) = [fam] :=
      dedup_eq_singleton_of_all_eq _ fam
        (by
          have : m0.pricingModelFamily = some fam := hall m0 (by simp)
          simp [List.filterMap_cons, this])
        (by
          intro x hx
          obtain ⟨m, hm, hx2⟩ := List.mem_filterMap.mp hx
          have := hall m hm
          rw [this] at hx2
          exact (Option.some_inj.mp hx2).symm)
    show some (match ((m0 :: tl).filterMap (·.pricingModelFamily)).dedup with
      | [f] => f
      | _ => "mixed".toList) = some fam
    rw [hd]
  · intro m1 h1 m2 h2 f1 f2 hf1 hf2 hne12
    have hm1 : f1 ∈ (m0 :: tl).filterMap (·.pricingModelFamily) :=
      List.mem_filterMap.mpr ⟨m1, h1, hf1⟩
    have hm2 : f2 ∈ (m0 :: tl).filterMap (·.pricingModelFamily) :=
      List.mem_filterMap.mpr ⟨m2, h2, hf2⟩
    have hnotone := dedup_ne_singleton_of_two hm1 hm2 hne12
    show some (match ((m0 :: tl).filterMap (·.pricingModelFamily)).dedup with
      | [f] => f
      | _ => "mixed".toList) = some "mixed".toList
    rcases hd : ((m0 :: tl).filterMap (·.pricingModelFamily)).dedup
      with _ | ⟨p, _ | ⟨q, rest⟩⟩
    · rw [hd]
    · exact absurd hd (hnotone p)
    · rw [hd]
  · intro mo hmo hall hex
    have hmemb : ∀ x ∈ modelsOf (m0 :: tl), x = mo := by
      intro x hx
      obtain ⟨m, hm, hx2⟩ := List.mem_filterMap.mp hx
      by_cases hme : m.model = []
      · rw [if_pos hme] at hx2
        cases hx2
      · rw [if_neg hme] at hx2
        have hmx : m.model = x := Option.some_inj.mp hx2
        rcases hall m hm with h | h
        · exact absurd h hme
        · rw [← hmx]
          exact h
    have hne2 : modelsOf (m0 :: tl) ≠ [] := by
      obtain ⟨m, hm, hmo2⟩ := hex
      intro hnil
      have hmem : mo ∈ modelsOf (m0 :: tl) :=
        List.mem_filterMap.mpr ⟨m, hm, by rw [hmo2, if_neg hmo]⟩
      rw [hnil] at hmem
      simp at hmem
    obtain ⟨mh, rest, hd⟩ := List.exists_cons_of_ne_nil hne2
    have hmh : mh = mo := hmemb mh (by rw [hd]; exact List.mem_cons_self mh rest)
    have hdedup : ((mh :: rest).dedup) = [mo] :=
      dedup_eq_singleton_of_all_eq _ mo (by simp)
        (fun x hx => hmemb x (by rw [hd]; exact hx))
    show (match modelsOf (m0 :: tl) with
      | [] => "multiple".toList
      | m :: rest => if ((m :: rest).dedup).length = 1 then m else "multiple".toList) = mo
    rw [hd]
    show (if ((mh :: rest).dedup).length = 1 then mh
      else "multiple".toList) = mo
    rw [hdedup]
    simp [hmh]
  · intro hall
    have hm : modelsOf (m0 :: tl) = [] := by
      unfold modelsOf
      rw [List.filterMap_eq_nil_iff]
      intro m hmem
      rw [hall m hmem]
      simp
    show (match modelsOf (m0 :: tl) with
      | [] => "multiple".toList
      | m :: rest => if ((m :: rest).dedup).length = 1 then m
        else "multiple".toList) = "multiple".toList
    rw [hm]
  · intro m1 h1 m2 h2 hm1 hm2 hne12
    have hx1 : m1.model ∈ modelsOf (m0 :: tl) :=
      List.mem_filterMap.mpr ⟨m1, h1, by rw [if_neg hm1]⟩
    have hx2 : m2.model ∈ modelsOf (m0 :: tl) :=
      List.mem_filterMap.mpr ⟨m2, h2, by rw [if_neg hm2]⟩
    show (match modelsOf (m0 :: tl) with
      | [] => "multiple".toList
      | m :: rest => if ((m :: rest).dedup).length = 1 then m
        else "multiple".toList) = "multiple".toList
    have hsplit : modelsOf (m0 :: tl) = [] ∨
        ∃ mh rest, modelsOf (m0 :: tl) = mh :: rest := by
      rcases modelsOf (m0 :: tl) with _ | ⟨a, b⟩
      · exact Or.inl rfl
      · exact Or.inr ⟨a, b, rfl⟩
    rcases hsplit with hd | ⟨mh, rest, hd⟩
    · rw [hd] at hx1
      simp at hx1
    · rw [hd] at hx1 hx2
      have hne1 : (((mh :: rest).dedup)).length ≠ 1 := by
        intro hlen
        obtain ⟨z, hz⟩ := List.length_eq_one.mp hlen
        exact dedup_ne_singleton_of_two hx1 hx2 hne12 z hz
      rw [hd]
      show (if ((mh :: rest).dedup).length = 1 then mh
        else "multiple".toList) = "multiple".toList
      rw [if_neg hne1]

/-- The claim as frozen is false on the code: a single record whose model
name is the empty string agrees with itself, yet the merge returns the
sentinel "multiple" instead of the common value, because `_merge_llm_metas`
filters falsy model names before the agreement check. -/
theorem claim_C3_counterexample :
    (∀ m ∈ [({ provider := "anthropic".toList, model := [] } : LlmInfo)],
      m.model = ([] : List Char)) ∧
    (mergeLlmMetas [({ provider := "anthropic".toList, model := [] } : LlmInfo)]
      "facts".toList).model = "multiple".toList ∧
    "multiple".toList ≠ ([] : List Char) := by
  refine ⟨by simp, ?_, by decide⟩
  rfl

/-- First merge input for `claim_C3_witness`. -/
def c3WitnessMetaA : LlmInfo :=
  { provider := "anthropic".toList
    model := "claude-haiku-4-5".toList
    pricingModelFamily := some "claude-haiku-4-5".toList
    inputTokens := 5
    outputTokens := 3 }

/-- Second merge input for `claim_C3_witness`. -/
def c3WitnessMetaB : LlmInfo :=
  { provider := "anthropic".toList
    model := "claude-haiku-4-5".toList
    pricingModelFamily := some "claude-haiku-4-5".toList
    inputTokens := 7
    outputTokens := 2 }

/-- A merge input whose model name is empty (ignored by the model-field
agreement check). -/
def c3WitnessMetaC : LlmInfo :=
  { provider := "anthropic".toList
    model := []
    pricingModelFamily := some "claude-haiku-4-5".toList
    inputTokens := 1
    outputTokens := 1 }

/-- Concrete instantiation of `claim_C3_merge_llm_metas`. -/
theorem claim_C3_witness :
    (mergeLlmMetas [c3WitnessMetaA, c3WitnessMetaB] "facts".toList).inputTokens = 12 ∧
    (mergeLlmMetas [c3WitnessMetaA, c3WitnessMetaB] "facts".toList).calls = some 2 ∧
    (mergeLlmMetas [c3WitnessMetaA, c3WitnessMetaB] "facts".toList).provider =
      "anthropic".toList ∧
    (mergeLlmMetas [c3WitnessMetaA, c3WitnessMetaB] "facts".toList).model =
      "claude-haiku-4-5".toList ∧
    (mergeLlmMetas [c3WitnessMetaA, c3WitnessMetaC] "facts".toList).model =
      "claude-haiku-4-5".toList := by
  have h := claim_C3_merge_llm_metas [c3WitnessMetaA, c3WitnessMetaB] "facts".toList
    (by decide)
  have hmix := claim_C3_merge_llm_metas [c3WitnessMetaA, c3WitnessMetaC] "facts".toList
    (by decide)
  refine ⟨?_, ?_, ?_, ?_, ?_⟩
  · rw [h.1]
    rfl
  · rw [h.2.2.2.2.1]
    rfl
  · exact h.2.2.2.2.2.1 "anthropic".toList (by decide)
  · exact h.2.2.2.2.2.2.2.2.2.1 "claude-haiku-4-5".toList (by decide) (by decide)
      (by decide)
  · exact hmix.2.2.2.2.2.2.2.2.2.1 "claude-haiku-4-5".toList (by decide) (by decide)
      (by decide)

/-- `_is_rate_limit_error` of `claude_service.py`: the lowercased error text
contains "429" or "rate_limit". -/
def isRateLimitError (e : List Char) : Bool :=
  isSubstrOf "429".toList (pyLower e) || isSubstrOf "rate_limit".toList (pyLower e)

/-- Loop of `_call_with_retries`: `attempt` is the current 0-based attempt
index and `left = retries - attempt` the retries still allowed.  `call`
abstracts `_messages_create` per attempt; the result carries the final
outcome, the number of attempts performed, and the backoff sleeps (in
seconds) in order. -/
def callWithRetriesGo {α : Type _} (call : ℕ → Except (List Char) α) :
    ℕ → ℕ → Except (List Char) α × ℕ × List ℚ
  | attempt, 0 =>
    match call attempt with
    | Except.ok v => (Except.ok v, attempt + 1, [])
    | Except.error e => (Except.error e, attempt + 1, [])
  | attempt, l + 1 =>
    match call attempt with
    | Except.ok v => (Except.ok v, attempt + 1, [])
    | Except.error e =>
      if isRateLimitError e then
        let r := callWithRetriesGo call (attempt + 1) l
        (r.1, r.2.1, (1 : ℚ) * 2 ^ attempt :: r.2.2)
      else (Except.error e, attempt + 1, [])

/-- `_call_with_retries` of `claude_service.py` (default `retries = 2`). -/
def callWithRetries {α : Type _} (call : ℕ → Except (List Char) α)
    (retries : ℕ) : Except (List Char) α × ℕ × List ℚ :=
  callWithRetriesGo call 0 retries

/-- One HTTP response of the Gemini `generateContent` endpoint, after JSON
decoding: status code, error body text, the two usage counters, and the
candidate parts (each part an optional text). -/
structure GemHttpResponse where
  statusCode : ℕ
  bodyText : List Char
  promptTokenCount : ℕ
  candidatesTokenCount : ℕ
  candidates : List (List (Option (List Char)))

/-- `_generate_content` of `gemini_service.py` after the single HTTP post:
a status of 400 or above raises immediately (there is no retry loop in this
adapter); otherwise the candidate texts are concatenated and stripped. -/
def generateContent (resp : GemHttpResponse) :
    Except (List Char) (List Char × GeminiUsage) :=
  if 400 ≤ resp.statusCode then
    Except.error ("gemini generateContent failed status=".toList
      ++ (toString resp.statusCode).toList ++ " body=".toList
      ++ resp.bodyText.take 1000)
  else
    let usage : GeminiUsage := ⟨resp.promptTokenCount, resp.candidatesTokenCount⟩
    match resp.candidates with
    | [] => Except.ok ([], usage)
    | parts :: _ => Except.ok (pyStrip (parts.filterMap id).flatten, usage)

theorem callWithRetriesGo_spec {α : Type _} (call : ℕ → Except (List Char) α) :
    ∀ (left attempt : ℕ),
      ((callWithRetriesGo call attempt left).2.1 ≤ attempt + left + 1) ∧
      (attempt < (callWithRetriesGo call attempt left).2.1) ∧
      ((callWithRetriesGo call attempt left).2.2 =
        (List.range' attempt ((callWithRetriesGo call attempt left).2.1 - 1 - attempt)).map
          (fun k => (1 : ℚ) * 2 ^ k)) ∧
      (∀ k, attempt ≤ k → k + 1 < (callWithRetriesGo call attempt left).2.1 →
        ∃ e, call k = Except.error e ∧ isRateLimitError e = true) := by
  intro left
  induction left with
  | zero =>
    intro attempt
    rcases hc : call attempt with e | v <;>
      simp only [callWithRetriesGo, hc] <;>
      refine ⟨by omega, by omega, by simp, ?_⟩ <;>
      intro k h1 h2 <;> omega
  | succ l ih =>
    intro attempt
    rcases hc : call attempt with e | v
    · rcases hr : isRateLimitError e with _ | _
      · have hstep : callWithRetriesGo call attempt (l + 1) =
            (Except.error e, attempt + 1, []) := by
          simp [callWithRetriesGo, hc, hr]
        rw [hstep]
        refine ⟨by dsimp only; omega, by dsimp only; omega, by simp, ?_⟩
        intro k h1 h2
        dsimp only at h2
        omega
      · obtain ⟨ih1, ih2, ih3, ih4⟩ := ih (attempt + 1)
        have hstep : callWithRetriesGo call attempt (l + 1) =
            ((callWithRetriesGo call (attempt + 1) l).1,
             (callWithRetriesGo call (attempt + 1) l).2.1,
             (1 : ℚ) * 2 ^ attempt :: (callWithRetriesGo call (attempt + 1) l).2.2) := by
          simp [callWithRetriesGo, hc, hr]
        rw [hstep]
        refine ⟨by dsimp only; omega, by dsimp only; omega, ?_, ?_⟩
        · have hn : (callWithRetriesGo call (attempt + 1) l).2.1 - 1 - attempt =
              ((callWithRetriesGo call (attempt + 1) l).2.1 - 1 - (attempt + 1)) + 1 := by
            omega
          show (1 : ℚ) * 2 ^ attempt :: (callWithRetriesGo call (attempt + 1) l).2.2 =
            (List.range' attempt
              ((callWithRetriesGo call (attempt + 1) l).2.1 - 1 - attempt)).map
              (fun k => (1 : ℚ) * 2 ^ k)
          rw [hn, List.range'_succ, List.map_cons, ← ih3]
        · intro k h1 h2
          rcases Nat.eq_or_lt_of_le h1 with heq | hlt
          · subst heq
            exact ⟨e, hc, hr⟩
          · refine ih4 k hlt ?_
            simpa using h2
    · have hstep : callWithRetriesGo call attempt (l + 1) =
          (Except.ok v, attempt + 1, []) := by
        simp [callWithRetriesGo, hc]
      rw [hstep]
      refine ⟨by dsimp only; omega, by dsimp only; omega, by simp, ?_⟩
      intro k h1 h2
      dsimp only at h2
      omega

theorem isSubstrOf_of_isPrefixOf {n hay : List Char} (h : n.isPrefixOf hay = true) :
    isSubstrOf n hay = true := by
  cases hay with
  | nil =>
    cases n with
    | nil => rfl
    | cons c t => simp [List.isPrefixOf] at h
  | cons c t =>
    unfold isSubstrOf findSubstrIdx
    simp [h]

theorem isSubstrOf_cons {n : List Char} (c : Char) {hay : List Char}
    (h : isSubstrOf n hay = true) : isSubstrOf n (c :: hay) = true := by
  unfold isSubstrOf findSubstrIdx
  by_cases hp : n.isPrefixOf (c :: hay)
  · simp [hp]
  · simp only [hp, if_neg, Bool.if_false_left, Option.isSome_map]
    unfold isSubstrOf at h
    simpa using h

theorem isSubstrOf_append {n hay : List Char} (x : List Char)
    (h : isSubstrOf n hay = true) : isSubstrOf n (x ++ hay) = true := by
  induction x with
  | nil => simpa using h
  | cons c t ih => exact isSubstrOf_cons c ih

/-- C7: in the Anthropic adapter, a call makes at most `retries + 1`
attempts (at most 2 retries at the default); an error without a rate-limit
signal propagates immediately after a single attempt with no sleep; the
backoff sleeps are exactly 1, 2, 4, ... seconds (base 1s, doubling per
attempt); and every non-final attempt failed with a rate-limit error, so
retries happen only on rate-limit signals.  The Gemini adapter performs
exactly one HTTP call per invocation and re-raises any status of 400 or
above immediately — including 429, whose error text carries the rate-limit
signal — so it satisfies the same bounds with zero retries. -/
theorem claim_C7_retry_policy :
    (∀ (α : Type) (call : ℕ → Except (List Char) α) (retries : ℕ),
      (callWithRetries call retries).2.1 ≤ retries + 1) ∧
    (∀ (α : Type) (call : ℕ → Except (List Char) α) (retries : ℕ) (e : List Char),
      call 0 = Except.error e → isRateLimitError e = false →
      callWithRetries call retries = (Except.error e, 1, [])) ∧
    (∀ (α : Type) (call : ℕ → Except (List Char) α) (retries : ℕ),
      (callWithRetries call retries).2.2 =
        (List.range ((callWithRetries call retries).2.1 - 1)).map
          (fun k => (1 : ℚ) * 2 ^ k)) ∧
    (∀ (α : Type) (call : ℕ → Except (List Char) α) (retries k : ℕ),
      k + 1 < (callWithRetries call retries).2.1 →
      ∃ e, call k = Except.error e ∧ isRateLimitError e = true) ∧
    (∀ resp : GemHttpResponse, 400 ≤ resp.statusCode →
      ∃ e, generateContent resp = Except.error e ∧
        (resp.statusCode = 429 → isRateLimitError e = true)) := by
  refine ⟨?_, ?_, ?_, ?_, ?_⟩
  · intro α call retries
    have h := (callWithRetriesGo_spec call retries 0).1
    unfold callWithRetries
    omega
  · intro α call retries e hc hrl
    cases retries with
    | zero => simp [callWithRetries, callWithRetriesGo, hc]
    | succ l => simp [callWithRetries, callWithRetriesGo, hc, hrl]
  · intro α call retries
    have h := (callWithRetriesGo_spec call retries 0).2.2.1
    unfold callWithRetries
    rw [h, List.range_eq_range', Nat.sub_zero]
  · intro α call retries k hk
    exact (callWithRetriesGo_spec call retries 0).2.2.2 k (Nat.zero_le k) hk
  · intro resp hge
    refine ⟨"gemini generateContent failed status=".toList
      ++ (toString resp.statusCode).toList ++ " body=".toList
      ++ resp.bodyText.take 1000, ?_, ?_⟩
    · unfold generateContent
      rw [if_pos hge]
    · intro h429
      unfold isRateLimitError pyLower
      rw [h429]
      have ht : ((toString (429 : ℕ)).toList).map Char.toLower = "429".toList := by
        decide
      simp only [List.map_append]
      rw [ht, List.append_assoc, List.append_assoc]
      have h1 : isSubstrOf "429".toList ("429".toList
          ++ (List.map Char.toLower " body=".toList
            ++ List.map Char.toLower (List.take 1000 resp.bodyText))) = true :=
        isSubstrOf_of_isPrefixOf (by
          rw [List.isPrefixOf_iff_prefix]
          exact List.prefix_append _ _)
      rw [isSubstrOf_append _ h1]
      rfl

/-- A call that always fails without a rate-limit signal. -/
def c7FailFast : ℕ → Except (List Char) ℕ :=
  fun _ => Except.error "boom".toList

/-- A call that always fails with an HTTP 429 signal. -/
def c7Call429 : ℕ → Except (List Char) ℕ :=
  fun _ => Except.error "HTTP 429 Too Many Requests".toList

/-- A Gemini response carrying status 429. -/
def c7Resp429 : GemHttpResponse :=
  ⟨429, "rate limited".toList, 3, 0, []⟩

/-- Concrete instantiation of `claim_C7_retry_policy`. -/
theorem claim_C7_witness :
    callWithRetries c7FailFast 2 = (Except.error "boom".toList, 1, ([] : List ℚ)) ∧
    (∃ e, c7Call429 1 = Except.error e ∧ isRateLimitError e = true) ∧
    (∃ e, generateContent c7Resp429 = Except.error e ∧
      (c7Resp429.statusCode = 429 → isRateLimitError e = true)) :=
  ⟨claim_C7_retry_policy.2.1 ℕ c7FailFast 2 "boom".toList rfl (by decide),
   claim_C7_retry_policy.2.2.2.1 ℕ c7Call429 2 1 (by decide),
   claim_C7_retry_policy.2.2.2.2 c7Resp429 (by decide)⟩

/-- Module-level default `_summary_model` (the default when the
`ANTHROPIC_SUMMARY_MODEL` environment variable is unset). -/
def anthropicSummaryModel : List Char := "claude-sonnet-4-6".toList

/-- Module-level default `_digest_model` (defaults to the summary model). -/
def anthropicDigestModel : List Char := anthropicSummaryModel

/-- Module-level default `_facts_model`. -/
def anthropicFactsModel : List Char := "claude-haiku-4-5".toList

/-- One digest item as validated by the `/compose-digest` router. -/
structure DigestItem where
  rank : Option ℤ
  title : Option (List Char)
  url : List Char
  summary : List Char
  topics : List (List Char)
  score : Option ℚ
  deriving DecidableEq

/-- A digest result: `subject`, `body` and the attached `llm` audit record. -/
structure DigestResult where
  subject : List Char
  body : List Char
  llm : LlmInfo
  deriving DecidableEq

/-- A fact-extraction result. -/
structure FactsResult where
  facts : List (List Char)
  llm : LlmInfo
  deriving DecidableEq

/-- Python `x or default` for an optional string (`None` and `""` are
falsy). -/
def pyTitleOr (t : Option (List Char)) (d : List Char) : List Char :=
  match t with
  | some s => if s = [] then d else s
  | none => d

/-- Python `str(...)` of an optional int (`None` prints as "None"). -/
def pyStrOfOptInt : Option ℤ → List Char
  | some n => (toString n).toList
  | none => "None".toList

/-- Python `text.replace("\n", "\\n")`. -/
def pyEscapeNewlines (s : List Char) : List Char :=
  ((s.map (fun c => if c = '\n' then ['\\', 'n'] else [c])).flatten)

/-- The `input_mode` component of `_build_digest_input_sections`: per-item
lines up to 80 items, topic-grouped compression above.  (The prompt text
it also builds feeds only the abstracted provider call.) -/
def digestInputMode (items : List DigestItem) : List Char :=
  if items.length ≤ 80 then "items".toList else "topic_grouped".toList

/-- The local heuristic digest built by `compose_digest` of
`claude_service.py` when no model reply was obtained (lines 829-859). -/
def composeDigestFallbackClaude (digestDate : List Char) (items : List DigestItem) :
    DigestResult :=
  let topTopics := (items.map (·.topics)).flatten
  let lines1 := ["【全体サマリ】".toList,
    "本日のダイジェスト（当日分の全記事要約ベース）をお届けします。".toList,
    [], "【注目ポイント】".toList]
  let lines2 := items.map (fun item =>
    "- #".toList ++ pyStrOfOptInt item.rank ++ " ".toList
      ++ pyTitleOr item.title "（タイトルなし）".toList)
  let lines3 := if topTopics ≠ [] then
      [[], "【その他のポイント】".toList,
       "主なトピック: ".toList ++ List.intercalate ", ".toList (dedupKeepFirst topTopics)]
    else []
  let lines4 := [[], "【明日以降のフォローポイント】".toList,
    "新規更新の続報と追加情報の有無を継続確認してください。".toList,
    [], "以上です。".toList]
  { subject := "Sifto Digest ".toList ++ digestDate
    body := List.intercalate "\n".toList (lines1 ++ lines2 ++ lines3 ++ lines4)
    llm := { provider := "local-fallback".toList, model := anthropicDigestModel } }

/-- `compose_digest` of `claude_service.py` with the provider call and the
reply parsing abstracted: `outcome = none` models `message is None` (no
credential, or primary and fallback models both failed); `outcome = some
(rawText, subject, body, meta)` models a reply `rawText` whose
`_extract_compose_digest_fields` returned `(subject, body)` and whose
`_llm_meta` is `meta`. -/
def composeDigestClaudeModel (digestDate : List Char) (items : List DigestItem)
    (outcome : Option (List Char × List Char × List Char × LlmInfo)) :
    Except (List Char) DigestResult :=
  if items = [] then
    Except.ok { subject := "Sifto Digest - ".toList ++ digestDate
                body := "本日のダイジェスト対象記事はありませんでした。".toList
                llm := { provider := "none".toList, model := "none".toList } }
  else
    match outcome with
    | none => Except.ok (composeDigestFallbackClaude digestDate items)
    | some (rawText, subject, body, meta) =>
      if subject = [] ∨ body = [] then
        Except.error ("claude compose_digest missing subject/body; response_snippet=".toList
          ++ pyEscapeNewlines (rawText.take 500))
      else if body.length < 80 then
        Except.error ("claude compose_digest body too short: len=".toList
          ++ (toString body.length).toList)
      else
        Except.ok
          { subject := subject
            body := body
            llm := { meta with
                     inputMode := some (digestInputMode items)
                     itemsCount := some items.length } }

/-- The reply of the single Gemini `_generate_content` call inside
`compose_digest`, with JSON decoding abstracted: an HTTP/transport error,
a `json.loads` failure on the reply text, or a decoded object whose
stripped `subject`/`body` fields are given. -/
inductive GeminiDigestReply where
  | httpError (e : List Char)
  | parseError (err rawText : List Char)
  | parsed (rawText subject body : List Char) (usage : GeminiUsage)

/-- `compose_digest` of `gemini_service.py` (call and JSON decoding
abstracted as `reply`). -/
def composeDigestGeminiModel (ov : GeminiPricingOverrides)
    (digestDate model : List Char) (items : List DigestItem)
    (reply : GeminiDigestReply) : Except (List Char) DigestResult :=
  if items = [] then
    Except.ok { subject := "Sifto Digest - ".toList ++ digestDate
                body := "本日のダイジェスト対象記事はありませんでした。".toList
                llm := geminiLlmMeta ov model ⟨0, 0⟩ }
  else
    match reply with
    | GeminiDigestReply.httpError e => Except.error e
    | GeminiDigestReply.parseError err rawText =>
      Except.error ("gemini compose_digest json parse failed: ".toList ++ err
        ++ "; response_snippet=".toList ++ pyEscapeNewlines (rawText.take 500))
    | GeminiDigestReply.parsed rawText subject body usage =>
      if subject = [] ∨ body = [] then
        Except.error ("gemini compose_digest missing subject/body; response_snippet=".toList
          ++ pyEscapeNewlines (rawText.take 500))
      else if body.length < 80 then
        Except.error ("gemini compose_digest body too short: len=".toList
          ++ (toString body.length).toList)
      else
        Except.ok
          { subject := subject
            body := body
            llm := geminiLlmMeta ov model usage }

/-- The naive line-splitting fallback of `extract_facts` in
`claude_service.py`: stripped non-empty lines, first five. -/
def extractFactsLocalLines (content : List Char) : List (List Char) :=
  (((pySplitlines content).map pyStrip).filter (fun l => l ≠ [])).take 5

/-- `extract_facts` of `claude_service.py` with the per-chunk provider
calls abstracted: `hasKey` is whether a credential was supplied;
`chunkOutcomes i` is `none` when the call for chunk `i` failed through both
models, otherwise the parsed fact list and `_llm_meta` of the reply. -/
def extractFactsClaudeModel (title : Option (List Char)) (content : List Char)
    (hasKey : Bool) (chunkOutcomes : ℕ → Option (List (List Char) × LlmInfo)) :
    FactsResult :=
  if hasKey = false then
    let facts0 := extractFactsLocalLines content
    let facts := if facts0 = [] ∧ pyTitleOr title [] ≠ [] then
        ["タイトル: ".toList ++ pyTitleOr title []]
      else facts0
    { facts := facts
      llm := { provider := "local-dev".toList, model := "local-fallback".toList } }
  else
    let chunks := splitTextChunks content 8000 400
    if chunks = [] then { facts := [], llm := mergeLlmMetas [] "facts".toList }
    else
      let outs := (List.range chunks.length).filterMap chunkOutcomes
      if outs = [] then
        { facts := extractFactsLocalLines content
          llm := { provider := "local-fallback".toList, model := anthropicFactsModel } }
      else
        { facts := mergeFactLists (outs.map (·.1)) 24
          llm := { mergeLlmMetas (outs.map (·.2)) "facts".toList with
                   chunkCount := some chunks.length,
                   chunkSuccessCount := some outs.length } }

/-- `extract_facts` of `gemini_service.py` with `_generate_content` and
`_parse_json_string_array` abstracted into `callResult`: any error of the
single provider call propagates; there is no fallback model and no local
heuristic in this service. -/
def extractFactsGeminiModel (ov : GeminiPricingOverrides) (model : List Char)
    (callResult : Except (List Char) (List (List Char) × GeminiUsage)) :
    Except (List Char) FactsResult :=
  match callResult with
  | Except.error e => Except.error e
  | Except.ok (facts, usage) =>
    Except.ok { facts := facts, llm := geminiLlmMeta ov model usage }

/-- `_call_with_model_fallback` of `claude_service.py`, with
`_call_with_retries` abstracted as `callModel`: no credential short-circuits
to `none`; a primary success is returned with the primary model name; on a
primary failure the fallback model is tried once when it is non-empty and
distinct; a double failure yields `none`. -/
def callWithModelFallback {α : Type _} (hasKey : Bool)
    (primaryModel fallbackModel : List Char)
    (callModel : List Char → Except (List Char) α) : Option (α × List Char) :=
  if hasKey = false then none
  else
    match callModel primaryModel with
    | Except.ok m => some (m, primaryModel)
    | Except.error _ =>
      if fallbackModel ≠ [] ∧ fallbackModel ≠ primaryModel then
        match callModel fallbackModel with
        | Except.ok m => some (m, fallbackModel)
        | Except.error _ => none
      else none

/-- C2: for both providers, once a reply is parsed, a non-empty subject
with a 79-character body makes `compose_digest` raise; an 80-character body
returns normally; and a missing (empty) subject or body also raises. -/
theorem claim_C2_digest_body_boundary :
    (∀ (digestDate : List Char) (items : List DigestItem)
       (rawText subject body : List Char) (meta : LlmInfo),
      items ≠ [] → subject ≠ [] → body.length = 79 →
      ∃ e, composeDigestClaudeModel digestDate items
        (some (rawText, subject, body, meta)) = Except.error e) ∧
    (∀ (digestDate : List Char) (items : List DigestItem)
       (rawText subject body : List Char) (meta : LlmInfo),
      items ≠ [] → subject ≠ [] → body.length = 80 →
      composeDigestClaudeModel digestDate items
        (some (rawText, subject, body, meta)) =
        Except.ok
          { subject := subject
            body := body
            llm := { meta with
                     inputMode := some (digestInputMode items)
                     itemsCount := some items.length } }) ∧
    (∀ (digestDate : List Char) (items : List DigestItem)
       (rawText subject body : List Char) (meta : LlmInfo),
      items ≠ [] → (subject = [] ∨ body = []) →
      ∃ e, composeDigestClaudeModel digestDate items
        (some (rawText, subject, body, meta)) = Except.error e) ∧
    (∀ (ov : GeminiPricingOverrides) (digestDate model : List Char)
       (items : List DigestItem) (rawText subject body : List Char)
       (usage : GeminiUsage),
      items ≠ [] → subject ≠ [] → body.length = 79 →
      ∃ e, composeDigestGeminiModel ov digestDate model items
        (GeminiDigestReply.parsed rawText subject body usage) = Except.error e) ∧
    (∀ (ov : GeminiPricingOverrides) (digestDate model : List Char)
       (items : List DigestItem) (rawText subject body : List Char)
       (usage : GeminiUsage),
      items ≠ [] → subject ≠ [] → body.length = 80 →
      composeDigestGeminiModel ov digestDate model items
        (GeminiDigestReply.parsed rawText subject body usage) =
        Except.ok
          { subject := subject
            body := body
            llm := geminiLlmMeta ov model usage }) ∧
    (∀ (ov : GeminiPricingOverrides) (digestDate model : List Char)
       (items : List DigestItem) (rawText subject body : List Char)
       (usage : GeminiUsage),
      items ≠ [] → (subject = [] ∨ body = []) →
      ∃ e, composeDigestGeminiModel ov digestDate model items
        (GeminiDigestReply.parsed rawText subject body usage) = Except.error e) := by
  have hne79 : ∀ body : List Char, body.length = 79 → body ≠ [] := by
    intro body h hb
    rw [hb] at h
    simp at h
  refine ⟨?_, ?_, ?_, ?_, ?_, ?_⟩
  · intro digestDate items rawText subject body meta hitems hsub hlen
    have heq : composeDigestClaudeModel digestDate items
        (some (rawText, subject, body, meta)) =
        Except.error ("claude compose_digest body too short: len=".toList
          ++ (toString body.length).toList) := by
      unfold composeDigestClaudeModel
      rw [if_neg hitems]
      show (if subject = [] ∨ body = [] then _ else _) = _
      rw [if_neg (by
        intro h
        rcases h with h | h
        · exact hsub h
        · exact hne79 body hlen h)]
      rw [if_pos (by omega)]
    exact ⟨_, heq⟩
  · intro digestDate items rawText subject body meta hitems hsub hlen
    unfold composeDigestClaudeModel
    rw [if_neg hitems]
    show (if subject = [] ∨ body = [] then _ else _) = _
    rw [if_neg (by
      intro h
      rcases h with h | h
      · exact hsub h
      · rw [h] at hlen
        simp at hlen)]
    rw [if_neg (by omega)]
  · intro digestDate items rawText subject body meta hitems hmiss
    have heq : composeDigestClaudeModel digestDate items
        (some (rawText, subject, body, meta)) =
        Except.error ("claude compose_digest missing subject/body; response_snippet=".toList
          ++ pyEscapeNewlines (rawText.take 500)) := by
      unfold composeDigestClaudeModel
      rw [if_neg hitems]
      show (if subject = [] ∨ body = [] then _ else _) = _
      rw [if_pos hmiss]
    exact ⟨_, heq⟩
  · intro ov digestDate model items rawText subject body usage hitems hsub hlen
    have heq : composeDigestGeminiModel ov digestDate model items
        (GeminiDigestReply.parsed rawText subject body usage) =
        Except.error ("gemini compose_digest body too short: len=".toList
          ++ (toString body.length).toList) := by
      unfold composeDigestGeminiModel
      rw [if_neg hitems]
      show (if subject = [] ∨ body = [] then _ else _) = _
      rw [if_neg (by
        intro h
        rcases h with h | h
        · exact hsub h
        · exact hne79 body hlen h)]
      rw [if_pos (by omega)]
    exact ⟨_, heq⟩
  · intro ov digestDate model items rawText subject body usage hitems hsub hlen
    unfold composeDigestGeminiModel
    rw [if_neg hitems]
    show (if subject = [] ∨ body = [] then _ else _) = _
    rw [if_neg (by
      intro h
      rcases h with h | h
      · exact hsub h
      · rw [h] at hlen
        simp at hlen)]
    rw [if_neg (by omega)]
  · intro ov digestDate model items rawText subject body usage hitems hmiss
    have heq : composeDigestGeminiModel ov digestDate model items
        (GeminiDigestReply.parsed rawText subject body usage) =
        Except.error ("gemini compose_digest missing subject/body; response_snippet=".toList
          ++ pyEscapeNewlines (rawText.take 500)) := by
      unfold composeDigestGeminiModel
      rw [if_neg hitems]
      show (if subject = [] ∨ body = [] then _ else _) = _
      rw [if_pos hmiss]
    exact ⟨_, heq⟩

/-- A digest item used by concrete instantiations. -/
def c2Item : DigestItem :=
  ⟨some 1, some "Title".toList, "https://example.com/a".toList,
   "summary".toList, [], none⟩

/-- Concrete instantiation of `claim_C2_digest_body_boundary`. -/
theorem claim_C2_witness :
    (∃ e, composeDigestClaudeModel "2026-02-01".toList [c2Item]
      (some ("raw".toList, "Subject".toList, List.replicate 79 'x',
        { provider := "anthropic".toList, model := anthropicDigestModel })) =
      Except.error e) ∧
    composeDigestClaudeModel "2026-02-01".toList [c2Item]
      (some ("raw".toList, "Subject".toList, List.replicate 80 'x',
        { provider := "anthropic".toList, model := anthropicDigestModel })) =
      Except.ok
        { subject := "Subject".toList
          body := List.replicate 80 'x'
          llm := { ({ provider := "anthropic".toList,
                      model := anthropicDigestModel } : LlmInfo) with
                   inputMode := some (digestInputMode [c2Item])
                   itemsCount := some [c2Item].length } } ∧
    (∃ e, composeDigestGeminiModel noGeminiOverrides "2026-02-01".toList
      "gemini-2.5-flash".toList [c2Item]
      (GeminiDigestReply.parsed "raw".toList "Subject".toList
        (List.replicate 79 'x') ⟨3, 4⟩) = Except.error e) :=
  ⟨claim_C2_digest_body_boundary.1 _ _ _ _ _ _ (by decide) (by decide) (by simp),
   claim_C2_digest_body_boundary.2.1 _ _ _ _ _ _ (by decide) (by decide) (by simp),
   claim_C2_digest_body_boundary.2.2.2.1 _ _ _ _ _ _ _ _
     (by decide) (by decide) (by simp)⟩

/-- Result tag of an `Except`. -/
def exceptIsOk {ε α : Type _} : Except ε α → Bool
  | Except.ok _ => true
  | Except.error _ => false

theorem extractFactsClaude_allFail (title : Option (List Char))
    (content : List Char)
    (chunkOutcomes : ℕ → Option (List (List Char) × LlmInfo))
    (hall : ∀ i, chunkOutcomes i = none)
    (hch : splitTextChunks content 8000 400 ≠ []) :
    extractFactsClaudeModel title content true chunkOutcomes =
      { facts := extractFactsLocalLines content
        llm := { provider := "local-fallback".toList,
                 model := anthropicFactsModel } } := by
  unfold extractFactsClaudeModel
  rw [if_neg (by simp)]
  show (if splitTextChunks content 8000 400 = [] then _ else _) = _
  rw [if_neg hch]
  have houts : (List.range (splitTextChunks content 8000 400).length).filterMap
      chunkOutcomes = [] :=
    List.filterMap_eq_nil_iff.mpr (fun a _ => hall a)
  show (if (List.range (splitTextChunks content 8000 400).length).filterMap
      chunkOutcomes = [] then _ else _) = _
  rw [if_pos houts]

/-- C8 (amended): without a credential no call is made; a primary-model
success is used as-is; on a primary failure the fallback model is tried
exactly once when configured and distinct, and its success is used; when
both fail the Claude orchestrators return a locally computed heuristic
result — including `compose_digest`, whose heuristic digest is returned
rather than raising (its fatal path is only the post-parse validation).
The Gemini service has no fallback model and no call-failure heuristic:
provider-call errors propagate to the caller for both fact extraction and
digest composition. -/
theorem claim_C8_fallback_policy :
    (∀ (α : Type) (primary fallback : List Char)
       (callModel : List Char → Except (List Char) α),
      callWithModelFallback false primary fallback callModel = none) ∧
    (∀ (α : Type) (primary fallback : List Char)
       (callModel : List Char → Except (List Char) α) (m : α),
      callModel primary = Except.ok m →
      callWithModelFallback true primary fallback callModel = some (m, primary)) ∧
    (∀ (α : Type) (primary fallback : List Char)
       (callModel : List Char → Except (List Char) α) (e : List Char) (m : α),
      callModel primary = Except.error e → fallback ≠ [] → fallback ≠ primary →
      callModel fallback = Except.ok m →
      callWithModelFallback true primary fallback callModel = some (m, fallback)) ∧
    (∀ (α : Type) (primary fallback : List Char)
       (callModel : List Char → Except (List Char) α) (e e2 : List Char),
      callModel primary = Except.error e → callModel fallback = Except.error e2 →
      callWithModelFallback true primary fallback callModel = none) ∧
    (∀ (title : Option (List Char)) (content : List Char)
       (chunkOutcomes : ℕ → Option (List (List Char) × LlmInfo)),
      (∀ i, chunkOutcomes i = none) → splitTextChunks content 8000 400 ≠ [] →
      (extractFactsClaudeModel title content true chunkOutcomes).llm.provider =
        "local-fallback".toList ∧
      (extractFactsClaudeModel title content true chunkOutcomes).facts =
        extractFactsLocalLines content) ∧
    (∀ (digestDate : List Char) (items : List DigestItem), items ≠ [] →
      composeDigestClaudeModel digestDate items none =
        Except.ok (composeDigestFallbackClaude digestDate items)) ∧
    (∀ (ov : GeminiPricingOverrides) (model e : List Char),
      extractFactsGeminiModel ov model (Except.error e) = Except.error e) ∧
    (∀ (ov : GeminiPricingOverrides) (digestDate model : List Char)
       (items : List DigestItem) (e : List Char), items ≠ [] →
      composeDigestGeminiModel ov digestDate model items
        (GeminiDigestReply.httpError e) = Except.error e) := by
  refine ⟨?_, ?_, ?_, ?_, ?_, ?_, ?_, ?_⟩
  · intro α primary fallback callModel
    rfl
  · intro α primary fallback callModel m hp
    unfold callWithModelFallback
    rw [if_neg (by simp), hp]
  · intro α primary fallback callModel e m hp hfne hfdist hf
    unfold callWithModelFallback
    rw [if_neg (by simp), hp]
    show (if fallback ≠ [] ∧ fallback ≠ primary then _ else _) = _
    rw [if_pos ⟨hfne, hfdist⟩, hf]
  · intro α primary fallback callModel e e2 hp hf
    unfold callWithModelFallback
    rw [if_neg (by simp), hp]
    show (if fallback ≠ [] ∧ fallback ≠ primary then _ else _) = _
    by_cases hc : fallback ≠ [] ∧ fallback ≠ primary
    · rw [if_pos hc, hf]
    · rw [if_neg hc]
  · intro title content chunkOutcomes hall hch
    rw [extractFactsClaude_allFail title content chunkOutcomes hall hch]
    exact ⟨rfl, rfl⟩
  · intro digestDate items hitems
    unfold composeDigestClaudeModel
    rw [if_neg hitems]
  · intro ov model e
    rfl
  · intro ov digestDate model items e hitems
    unfold composeDigestGeminiModel
    rw [if_neg hitems]

/-- A digest item used by the C8 instantiations. -/
def c8Item : DigestItem :=
  ⟨some 2, some "記事タイトル".toList, "https://example.com/b".toList,
   "要約".toList, ["AI".toList], none⟩

/-- A per-chunk outcome map on which every provider call failed. -/
def c8AllChunksFail : ℕ → Option (List (List Char) × LlmInfo) :=
  fun _ => none

/-- A model call that succeeds only on the fallback model name. -/
def c8CallFallbackOnly : List Char → Except (List Char) ℕ :=
  fun m => if m = "fb-model".toList then Except.ok 9
    else Except.error "primary down".toList

/-- A model call that always fails. -/
def c8CallFail : List Char → Except (List Char) ℕ :=
  fun _ => Except.error "transport down".toList

/-- The claim as frozen is false on the code: when both models fail,
`compose_digest` in the Claude service does not treat the failure as fatal
— it returns the locally composed heuristic digest (provider
"local-fallback") instead of raising. -/
theorem claim_C8_counterexample :
    exceptIsOk (composeDigestClaudeModel "2026-02-01".toList [c8Item] none) = true ∧
    (match composeDigestClaudeModel "2026-02-01".toList [c8Item] none with
     | Except.ok r => r.llm.provider
     | Except.error _ => []) = "local-fallback".toList :=
  ⟨rfl, rfl⟩

/-- Concrete instantiation of `claim_C8_fallback_policy`. -/
theorem claim_C8_witness :
    callWithModelFallback true "primary-model".toList "fb-model".toList
      c8CallFallbackOnly = some (9, "fb-model".toList) ∧
    callWithModelFallback true "primary-model".toList "fb-model".toList
      c8CallFail = none ∧
    (extractFactsClaudeModel (some "T".toList) "line one\nline two".toList true
      c8AllChunksFail).llm.provider = "local-fallback".toList ∧
    composeDigestClaudeModel "2026-02-02".toList [c8Item] none =
      Except.ok (composeDigestFallbackClaude "2026-02-02".toList [c8Item]) ∧
    composeDigestGeminiModel noGeminiOverrides "2026-02-02".toList
      "gemini-2.5-flash".toList [c8Item]
      (GeminiDigestReply.httpError "status 500".toList) =
      Except.error "status 500".toList :=
  ⟨claim_C8_fallback_policy.2.2.1 ℕ "primary-model".toList "fb-model".toList
     c8CallFallbackOnly "primary down".toList 9 rfl (by decide) (by decide) rfl,
   claim_C8_fallback_policy.2.2.2.1 ℕ "primary-model".toList "fb-model".toList
     c8CallFail "transport down".toList "transport down".toList rfl rfl,
   (claim_C8_fallback_policy.2.2.2.2.1 (some "T".toList)
     "line one\nline two".toList c8AllChunksFail (fun _ => rfl) (by decide)).1,
   claim_C8_fallback_policy.2.2.2.2.2.1 "2026-02-02".toList [c8Item] (by decide),
   claim_C8_fallback_policy.2.2.2.2.2.2.2 noGeminiOverrides "2026-02-02".toList
     "gemini-2.5-flash".toList [c8Item] "status 500".toList (by decide)⟩

/-- C9 (amended): every Anthropic-service result produced without a real
provider call carries one of the degraded provider markers — "local-dev"
when no credential is supplied, "none" on the empty-input short-circuits,
"local-fallback" when every provider call failed — and these markers differ
from both real vendor names.  The Gemini `compose_digest` with an empty
item list, however, returns its fixed "no items" result with provider
"google" and zeroed usage even though no provider call is made. -/
theorem claim_C9_degraded_provider :
    (∀ (title : Option (List Char)) (content : List Char)
       (chunkOutcomes : ℕ → Option (List (List Char) × LlmInfo)),
      (extractFactsClaudeModel title content false chunkOutcomes).llm.provider =
        "local-dev".toList) ∧
    (∀ (title : Option (List Char)) (content : List Char)
       (chunkOutcomes : ℕ → Option (List (List Char) × LlmInfo)),
      splitTextChunks content 8000 400 = [] →
      (extractFactsClaudeModel title content true chunkOutcomes).llm.provider =
        "none".toList) ∧
    (∀ (title : Option (List Char)) (content : List Char)
       (chunkOutcomes : ℕ → Option (List (List Char) × LlmInfo)),
      (∀ i, chunkOutcomes i = none) → splitTextChunks content 8000 400 ≠ [] →
      (extractFactsClaudeModel title content true chunkOutcomes).llm.provider =
        "local-fallback".toList) ∧
    (∀ (digestDate : List Char)
       (outcome : Option (List Char × List Char × List Char × LlmInfo)),
      ∃ r, composeDigestClaudeModel digestDate [] outcome = Except.ok r ∧
        r.llm.provider = "none".toList ∧
        r.subject = "Sifto Digest - ".toList ++ digestDate ∧
        r.body = "本日のダイジェスト対象記事はありませんでした。".toList) ∧
    (∀ (digestDate : List Char) (items : List DigestItem), items ≠ [] →
      ∃ r, composeDigestClaudeModel digestDate items none = Except.ok r ∧
        r.llm.provider = "local-fallback".toList) ∧
    (∀ p ∈ ["none".toList, "local-dev".toList, "local-fallback".toList],
      p ≠ "anthropic".toList ∧ p ≠ "google".toList) ∧
    (∀ (ov : GeminiPricingOverrides) (digestDate model : List Char)
       (reply : GeminiDigestReply),
      ∃ r, composeDigestGeminiModel ov digestDate model [] reply = Except.ok r ∧
        r.llm.provider = "google".toList) := by
  refine ⟨?_, ?_, ?_, ?_, ?_, ?_, ?_⟩
  · intro title content chunkOutcomes
    rfl
  · intro title content chunkOutcomes hch
    unfold extractFactsClaudeModel
    rw [if_neg (by simp)]
    show (LlmInfo.provider (FactsResult.llm
      (if splitTextChunks content 8000 400 = [] then _ else _))) = _
    rw [if_pos hch]
    rfl
  · intro title content chunkOutcomes hall hch
    rw [extractFactsClaude_allFail title content chunkOutcomes hall hch]
  · intro digestDate outcome
    exact ⟨_, rfl, rfl, rfl, rfl⟩
  · intro digestDate items hitems
    refine ⟨composeDigestFallbackClaude digestDate items, ?_, rfl⟩
    unfold composeDigestClaudeModel
    rw [if_neg hitems]
  · decide
  · intro ov digestDate model reply
    exact ⟨_, rfl, rfl⟩

/-- The claim as frozen is false on the code: the Gemini `compose_digest`
invoked with an empty item list makes no provider call, yet its audit
record names the real vendor "google" rather than one of the degraded
markers. -/
theorem claim_C9_counterexample :
    (match composeDigestGeminiModel noGeminiOverrides "2026-02-01".toList
        "gemini-2.5-flash".toList [] (GeminiDigestReply.httpError []) with
     | Except.ok r => r.llm.provider
     | Except.error _ => []) = "google".toList ∧
    "google".toList ∉ ["none".toList, "local-dev".toList, "local-fallback".toList] := by
  exact ⟨rfl, by decide⟩

/-- Concrete instantiation of `claim_C9_degraded_provider`. -/
theorem claim_C9_witness :
    (extractFactsClaudeModel (some "T".toList) "   ".toList true
      c8AllChunksFail).llm.provider = "none".toList ∧
    (extractFactsClaudeModel (some "T".toList) "line one\nline two".toList true
      c8AllChunksFail).llm.provider = "local-fallback".toList ∧
    (∃ r, composeDigestClaudeModel "2026-02-03".toList [c8Item] none =
      Except.ok r ∧ r.llm.provider = "local-fallback".toList) :=
  ⟨claim_C9_degraded_provider.2.1 (some "T".toList) "   ".toList
     c8AllChunksFail (by decide),
   claim_C9_degraded_provider.2.2.1 (some "T".toList)
     "line one\nline two".toList c8AllChunksFail (fun _ => rfl) (by decide),
   claim_C9_degraded_provider.2.2.2.2.1 "2026-02-03".toList [c8Item] (by decide)⟩
